import Mathlib

set_option maxRecDepth 8000

/-!
# Verification of the Canvas DAP web client and its CORS relay

This development shallowly embeds the repository's core logic in Lean 4:

* the browser-side `DAPClient` (authentication gate, query builders,
  job submission and polling, download-URL resolution, file download),
  translated from the first revision of the client module;
* the serverless relay `api/proxy.js` (CORS/OPTIONS handling, the
  large-S3-file redirect shortcut, binary-vs-JSON envelope
  classification) and the preflight path of the second revision of
  `api/cors-proxy.js`.

Network interactions are parametrized by their responses: every function
that in JavaScript awaits an HTTP response instead receives that
response (an envelope value) as an explicit argument, and returns,
besides its result, the pieces of observable behaviour the claims talk
about (state, number of authentication calls, the request body actually
sent, poll counts, elapsed time).

JavaScript values carried inside JSON envelopes are modelled by `JVal`.
Numbers are modelled by their integer part (the payloads of interest are
byte values 0..255); `\uXXXX` string escapes are decoded without
surrogate-pair combination.  Host built-ins used by the source
(`JSON.parse`, `String.fromCharCode`, `atob`, `Date.prototype.toISOString`,
buffer UTF-8 conversion) are modelled by executable Lean functions below.
-/

/-! ## JavaScript value model -/

/-- A JSON value as seen by the JavaScript code.  Numbers are modelled by
their integer part, which is exact for the byte-sequence payloads this
program manipulates. -/
inductive JVal where
  | jnull
  | jbool (b : Bool)
  | jnum (n : Int)
  | jstr (s : String)
  | jarr (xs : List JVal)
  | jobj (fields : List (String × JVal))
deriving Repr

/-- JavaScript truthiness of a `JVal`. -/
def jsTruthy : JVal → Bool
  | .jnull => false
  | .jbool b => b
  | .jnum n => n != 0
  | .jstr s => s != ""
  | .jarr _ => true
  | .jobj _ => true

/-- Property access `v.key`: `some` when the property exists (only plain
objects carry named properties here), `none` meaning `undefined`.
Assumes distinct keys, as produced by the JSON sources in this program. -/
def jsGetField (v : JVal) (key : String) : Option JVal :=
  match v with
  | .jobj fields => fields.lookup key
  | _ => none

/-- `v.key || dflt`: JavaScript or-default on a property access. -/
def jsFieldOr (v : JVal) (key : String) (dflt : JVal) : JVal :=
  match jsGetField v key with
  | some u => if jsTruthy u then u else dflt
  | none => dflt

/-- JavaScript truthiness of an optional string (absent or empty is falsy). -/
def optTruthy : Option String → Option String
  | some s => if s = "" then none else some s
  | none => none

/-- Boolean form of `optTruthy`. -/
def optIsTruthy (o : Option String) : Bool :=
  match o with
  | some s => s != ""
  | none => false

/-- `String.prototype.includes`: substring test, used to model
`url.includes(...)` checks in both the client and the relay. -/
def jsIncludes (s sub : String) : Bool :=
  (List.range (s.toList.length + 1)).any fun i =>
    sub.toList.isPrefixOf (s.toList.drop i)

/-! ## JSON parsing (model of `JSON.parse`) -/

/-- Skip JSON whitespace. -/
def skipWs : List Char → List Char
  | c :: cs => if c = ' ' || c = '\n' || c = '\t' || c = '\r' then skipWs cs else c :: cs
  | [] => []

/-- Hex digit value. -/
def hexVal (c : Char) : Option Nat :=
  if '0' ≤ c && c ≤ '9' then some (c.toNat - 48)
  else if 'a' ≤ c && c ≤ 'f' then some (c.toNat - 87)
  else if 'A' ≤ c && c ≤ 'F' then some (c.toNat - 55)
  else none

/-- Parse the chars of a JSON string after the opening quote; returns the
decoded chars and the remainder after the closing quote. -/
def parseStrChars : List Char → Option (List Char × List Char)
  | [] => none
  | '"' :: rest => some ([], rest)
  | '\\' :: esc =>
    match esc with
    | 'u' :: a :: b :: c :: d :: rest =>
      match hexVal a, hexVal b, hexVal c, hexVal d with
      | some x, some y, some z, some w =>
        match parseStrChars rest with
        | some (cs, rem) => some (Char.ofNat (((x * 16 + y) * 16 + z) * 16 + w) :: cs, rem)
        | none => none
      | _, _, _, _ => none
    | e :: rest =>
      let dec : Option Char :=
        if e = '"' then some '"'
        else if e = '\\' then some '\\'
        else if e = '/' then some '/'
        else if e = 'b' then some (Char.ofNat 8)
        else if e = 'f' then some (Char.ofNat 12)
        else if e = 'n' then some '\n'
        else if e = 'r' then some (Char.ofNat 13)
        else if e = 't' then some '\t'
        else none
      match dec with
      | some ch =>
        match parseStrChars rest with
        | some (cs, rem) => some (ch :: cs, rem)
        | none => none
      | none => none
    | [] => none
  | c :: rest =>
    if c.toNat < 32 then none
    else
      match parseStrChars rest with
      | some (cs, rem) => some (c :: cs, rem)
      | none => none

/-- Take a maximal run of decimal digits. -/
def takeDigits : List Char → List Char × List Char
  | c :: cs =>
    if c.isDigit then
      let (ds, rest) := takeDigits cs
      (c :: ds, rest)
    else ([], c :: cs)
  | [] => ([], [])

/-- Numeric value of a digit run. -/
def digitsToNat (ds : List Char) : Nat :=
  ds.foldl (fun acc c => acc * 10 + (c.toNat - 48)) 0

/-- Parse a JSON number; the fractional part and exponent are consumed but
the stored value is the integer part (exact for the byte payloads used
here). -/
def parseNum (cs : List Char) : Option (JVal × List Char) :=
  let (neg, cs1) :=
    match cs with
    | '-' :: rest => (true, rest)
    | _ => (false, cs)
  let (intDigits, cs2) := takeDigits cs1
  if intDigits.isEmpty then none
  else
    let cs3 :=
      match cs2 with
      | '.' :: rest => (takeDigits rest).2
      | _ => cs2
    let cs4 :=
      match cs3 with
      | 'e' :: rest | 'E' :: rest =>
        match rest with
        | '+' :: r2 | '-' :: r2 => (takeDigits r2).2
        | _ => (takeDigits rest).2
      | _ => cs3
    let v : Int := Int.ofNat (digitsToNat intDigits)
    some (.jnum (if neg then -v else v), cs4)

mutual

/-- Parse one JSON value (fuel-indexed recursive descent). -/
def parseJVal : Nat → List Char → Option (JVal × List Char)
  | 0, _ => none
  | fuel + 1, cs =>
    match skipWs cs with
    | [] => none
    | c :: rest =>
      if c = '{' then
        match skipWs rest with
        | '}' :: rem => some (.jobj [], rem)
        | cs1 => parseObjFields fuel cs1 []
      else if c = '[' then
        match skipWs rest with
        | ']' :: rem => some (.jarr [], rem)
        | cs1 => parseArrItems fuel cs1 []
      else if c = '"' then
        match parseStrChars rest with
        | some (chars, rem) => some (.jstr (String.mk chars), rem)
        | none => none
      else if c = 't' then
        match rest with
        | 'r' :: 'u' :: 'e' :: rem => some (.jbool true, rem)
        | _ => none
      else if c = 'f' then
        match rest with
        | 'a' :: 'l' :: 's' :: 'e' :: rem => some (.jbool false, rem)
        | _ => none
      else if c = 'n' then
        match rest with
        | 'u' :: 'l' :: 'l' :: rem => some (.jnull, rem)
        | _ => none
      else parseNum (c :: rest)

/-- Parse the members of a JSON object after the opening brace (non-empty
case); accumulates parsed fields in order. -/
def parseObjFields : Nat → List Char → List (String × JVal) → Option (JVal × List Char)
  | 0, _, _ => none
  | fuel + 1, cs, acc =>
    match skipWs cs with
    | '"' :: rest =>
      match parseStrChars rest with
      | some (keyChars, afterKey) =>
        match skipWs afterKey with
        | ':' :: afterColon =>
          match parseJVal fuel afterColon with
          | some (v, afterVal) =>
            let acc1 := acc ++ [(String.mk keyChars, v)]
            match skipWs afterVal with
            | ',' :: next => parseObjFields fuel next acc1
            | '}' :: rem => some (.jobj acc1, rem)
            | _ => none
          | none => none
        | _ => none
      | none => none
    | _ => none

/-- Parse the items of a JSON array after the opening bracket (non-empty
case). -/
def parseArrItems : Nat → List Char → List JVal → Option (JVal × List Char)
  | 0, _, _ => none
  | fuel + 1, cs, acc =>
    match parseJVal fuel cs with
    | some (v, afterVal) =>
      let acc1 := acc ++ [v]
      match skipWs afterVal with
      | ',' :: next => parseArrItems fuel next acc1
      | ']' :: rem => some (.jarr acc1, rem)
      | _ => none
    | none => none

end

/-- Model of `JSON.parse`: parse a complete JSON document, requiring only
trailing whitespace after the value. -/
def parseJson (s : String) : Option JVal :=
  match parseJVal (s.toList.length + 1) s.toList with
  | some (v, rest) => if skipWs rest = [] then some v else none
  | none => none

/-! ## Byte and string built-ins used by the source -/

/-- `String.fromCharCode(n)` for one code: `ToUint16` then the code unit
as a character (codes below 0x10000 only, which covers the byte payloads
produced by the relay; an invalid code point maps to the null char). -/
def fromCharCode (n : Nat) : Char :=
  Char.ofNat (n % 65536)

/-- One element of a byte array coerced to a character code, as
`String.fromCharCode.apply(null, arr)` does element-wise.  Non-numeric or
negative elements (which the relay never produces) make the decode fail
in this model. -/
def jvalCharCode : JVal → Option Nat
  | .jnum n => if 0 ≤ n then some n.toNat else none
  | _ => none

/-- Decode a list of `JVal` character codes into a string, modelling
`String.fromCharCode.apply(null, responseData)`. -/
def decodeCharCodes (xs : List JVal) : Option String :=
  match xs.mapM jvalCharCode with
  | some ns => some (String.mk (ns.map fromCharCode))
  | none => none

/-- A list of character codes as a string (used to state round trips). -/
def stringOfCodes (ns : List Nat) : String :=
  String.mk (ns.map fromCharCode)

/-- `ToUint8` coercion applied by `new Uint8Array(array)` to each element:
integers wrap modulo 256, non-numbers coerce through NaN to 0. -/
def jsToUint8 : JVal → Nat
  | .jnum n => (n % 256).toNat
  | _ => 0

/-- `charCodeAt(i) & 0xff` on a character of a Lean string (code points
stand in for UTF-16 code units; identical on the payloads at hand). -/
def charCodeByte (c : Char) : Nat :=
  c.toNat % 256

/-- Value of a base64 alphabet character, with `+` and `/` as in `atob`. -/
def b64Val (c : Char) : Option Nat :=
  if 'A' ≤ c && c ≤ 'Z' then some (c.toNat - 65)
  else if 'a' ≤ c && c ≤ 'z' then some (c.toNat - 71)
  else if '0' ≤ c && c ≤ '9' then some (c.toNat + 4)
  else if c = '+' then some 62
  else if c = '/' then some 63
  else none

/-- Groups of four base64 characters into bytes; `=` padding is allowed
only at the very end. -/
def b64Quanta : List Char → Option (List Nat)
  | [] => some []
  | [a, b, '=', '='] =>
    match b64Val a, b64Val b with
    | some x, some y => some [x * 4 + y / 16]
    | _, _ => none
  | [a, b, c, '='] =>
    match b64Val a, b64Val b, b64Val c with
    | some x, some y, some z => some [x * 4 + y / 16, (y % 16) * 16 + z / 4]
    | _, _, _ => none
  | a :: b :: c :: d :: rest =>
    match b64Val a, b64Val b, b64Val c, b64Val d, b64Quanta rest with
    | some x, some y, some z, some w, some tail =>
      some ([x * 4 + y / 16, (y % 16) * 16 + z / 4, (z % 4) * 64 + w] ++ tail)
    | _, _, _, _, _ => none
  | _ => none

/-- Model of `atob`: strips ASCII whitespace, then decodes base64 into the
byte codes of the resulting binary string; `none` models the exception on
malformed input. -/
def atobDecode (s : String) : Option (List Nat) :=
  let cs := s.toList.filter fun c =>
    !(c = ' ' || c = '\t' || c = '\n' || c = '\x0d' || c = '\x0c')
  if cs.length % 4 = 1 then none else b64Quanta cs

/-- UTF-8 encoding of one code point. -/
def utf8EncodeChar (c : Char) : List Nat :=
  let n := c.toNat
  if n < 0x80 then [n]
  else if n < 0x800 then [0xC0 + n / 64, 0x80 + n % 64]
  else if n < 0x10000 then [0xE0 + n / 4096, 0x80 + n / 64 % 64, 0x80 + n % 64]
  else [0xF0 + n / 262144, 0x80 + n / 4096 % 64, 0x80 + n / 64 % 64, 0x80 + n % 64]

/-- Model of `Buffer.from(s, 'utf8')`. -/
def utf8Encode (s : String) : List Nat :=
  s.toList.flatMap utf8EncodeChar

/-- One step of UTF-8 decoding: the next code point (replacement char
`U+FFFD` on malformed input, as Node's `buffer.toString('utf8')` yields)
and the remaining bytes. -/
def utf8DecodeStep : List Nat → Option (Char × List Nat)
  | [] => none
  | b :: bs =>
    if b < 0x80 then some (Char.ofNat b, bs)
    else if 0xC2 ≤ b && b < 0xE0 then
      match bs with
      | b2 :: rest =>
        if 0x80 ≤ b2 && b2 < 0xC0 then
          some (Char.ofNat ((b - 0xC0) * 64 + (b2 - 0x80)), rest)
        else some (Char.ofNat 0xFFFD, bs)
      | [] => some (Char.ofNat 0xFFFD, [])
    else if 0xE0 ≤ b && b < 0xF0 then
      match bs with
      | b2 :: b3 :: rest =>
        if 0x80 ≤ b2 && b2 < 0xC0 && 0x80 ≤ b3 && b3 < 0xC0 then
          some (Char.ofNat ((b - 0xE0) * 4096 + (b2 - 0x80) * 64 + (b3 - 0x80)), rest)
        else some (Char.ofNat 0xFFFD, bs)
      | _ => some (Char.ofNat 0xFFFD, bs.drop bs.length)
    else if 0xF0 ≤ b && b < 0xF5 then
      match bs with
      | b2 :: b3 :: b4 :: rest =>
        if 0x80 ≤ b2 && b2 < 0xC0 && 0x80 ≤ b3 && b3 < 0xC0 && 0x80 ≤ b4 && b4 < 0xC0 then
          some (Char.ofNat ((b - 0xF0) * 262144 + (b2 - 0x80) * 4096 + (b3 - 0x80) * 64 + (b4 - 0x80)), rest)
        else some (Char.ofNat 0xFFFD, bs)
      | _ => some (Char.ofNat 0xFFFD, bs.drop bs.length)
    else some (Char.ofNat 0xFFFD, bs)

/-- Fuel-indexed UTF-8 decode loop. -/
def utf8DecodeAux : Nat → List Nat → List Char
  | 0, _ => []
  | fuel + 1, bs =>
    match utf8DecodeStep bs with
    | some (c, rest) => c :: utf8DecodeAux fuel rest
    | none => []

/-- Model of `buffer.toString('utf8')`. -/
def utf8Decode (bs : List Nat) : String :=
  String.mk (utf8DecodeAux (bs.length + 1) bs)

/-! ## `Date.prototype.toISOString` (for the query builders)

JavaScript `Date` objects are modelled by a non-negative epoch-millisecond
count (the UI only ever builds dates from user-chosen modern timestamps). -/

/-- Decimal digit character. -/
def digitChar (n : Nat) : Char :=
  Char.ofNat (48 + n % 10)

/-- Fuel-indexed most-significant-first decimal digits. -/
def natDigitsAux : Nat → Nat → List Char
  | 0, _ => []
  | fuel + 1, n =>
    if n < 10 then [digitChar n]
    else natDigitsAux fuel (n / 10) ++ [digitChar (n % 10)]

/-- Decimal digits of a natural number. -/
def natDigits (n : Nat) : List Char :=
  natDigitsAux (n + 1) n

/-- Digits of `n` left-padded with zeros to width `w`. -/
def padDigits (w n : Nat) : List Char :=
  List.replicate (w - (natDigits n).length) '0' ++ natDigits n

/-- Civil date from a day count since 1970-01-01 (Gregorian calendar,
valid for non-negative day counts). -/
def daysToCivil (z : Nat) : Nat × Nat × Nat :=
  let era := (z + 719468) / 146097
  let doe := (z + 719468) % 146097
  let yoe := (doe - doe / 1460 + doe / 36524 - doe / 146096) / 365
  let y := yoe + era * 400
  let doy := doe - (365 * yoe + yoe / 4 - yoe / 100)
  let mp := (5 * doy + 2) / 153
  let d := doy - (153 * mp + 2) / 5 + 1
  let m := if mp < 10 then mp + 3 else mp - 9
  (if m ≤ 2 then y + 1 else y, m, d)

/-- The ISO-8601 rendering of split date-time components; years above
9999 use the expanded `+YYYYYY` form as in JavaScript. -/
def isoDateTimeChars (y m d hh mi ss ms3 : Nat) : List Char :=
  (if y ≤ 9999 then padDigits 4 y else '+' :: padDigits 6 y) ++ ['-'] ++
    padDigits 2 m ++ ['-'] ++ padDigits 2 d ++ ['T'] ++
    padDigits 2 hh ++ [':'] ++ padDigits 2 mi ++ [':'] ++
    padDigits 2 ss ++ ['.'] ++ padDigits 3 ms3 ++ ['Z']

/-- The characters of `new Date(ms).toISOString()` for a non-negative
epoch-millisecond count. -/
def isoChars (ms : Nat) : List Char :=
  let days := ms / 86400000
  let rem := ms % 86400000
  let ymd := daysToCivil days
  isoDateTimeChars ymd.1 ymd.2.1 ymd.2.2 (rem / 3600000) (rem % 3600000 / 60000)
    (rem % 60000 / 1000) (rem % 1000)

/-- Model of `Date.prototype.toISOString`. -/
def jsToISOString (epochMs : Nat) : String :=
  String.mk (isoChars epochMs)

/-- A character allowed in an absolute timestamp string: a digit or
ISO-8601 punctuation. -/
def isTimestampChar (c : Char) : Bool :=
  c.isDigit || c = '-' || c = ':' || c = '.' || c = 'T' || c = 'Z' || c = '+'

/-- Formalization of the spec's "absolute timestamp string": only
digits and ISO-8601 punctuation, a `T` date-time separator, and a
terminating `Z` zone designator. -/
def isTimestampString (s : String) : Bool :=
  !s.toList.isEmpty &&
  s.toList.all isTimestampChar &&
  s.toList.contains 'T' &&
  (s.toList.getLast? == some 'Z')

/-! ## Client data model

The envelope a client operation receives from `makeProxyRequest` (the
parsed JSON body returned by the relay).  The `data` payload type varies
by endpoint, so it is a type parameter: job endpoints carry `Job`
records, download endpoints carry raw `JVal`. -/

/-- A relay envelope as seen by the client. -/
structure Env (α : Type) where
  data : α
  status : Nat
  statusText : String := ""
  redirect : Option String := none
  isBinary : Bool := false
deriving Repr

/-- One object reference inside a completed job. -/
structure ObjRef where
  id : String
deriving Repr, DecidableEq

/-- A job record as returned by the query and job-status endpoints.
`id` and `error` are `none` when the corresponding JSON field is absent. -/
structure Job where
  id : Option String := none
  status : String := ""
  error : Option String := none
  objects : Option (List ObjRef) := none
deriving Repr, DecidableEq

/-- The mutable client state: credentials and the cached token. -/
structure ClientState where
  clientId : Option String := none
  clientSecret : Option String := none
  accessToken : Option String := none
  tokenExpiry : Option Nat := none
deriving Repr, DecidableEq

/-- The body of a successful authentication response. -/
structure AuthResponse where
  status : Nat
  statusText : String := ""
  access_token : String := ""
  expires_in : Option Nat := none
deriving Repr, DecidableEq

/-- Result of a client operation: the value or thrown error, the state
after the call, and how many times `authenticate` ran during it. -/
structure OpResult (α : Type) where
  result : Except String α
  state : ClientState
  authCalls : Nat
deriving Repr

/-- The token-validity test of `ensureAuthenticated`:
`!this.accessToken || !this.tokenExpiry || new Date() >= this.tokenExpiry`
negated.  An empty-string token is falsy in JavaScript; a `Date` object
for the expiry is always truthy. -/
def tokenValid (st : ClientState) (now : Nat) : Bool :=
  optIsTruthy st.accessToken && st.tokenExpiry.isSome &&
    decide (now < st.tokenExpiry.getD 0)

/-- `DAPClient.authenticate`: requires both credentials (JavaScript
truthiness), then exchanges them for a token through the relay; the
response is the `auth` parameter.  On HTTP 200 the token and its expiry
`now + expires_in * 1000` (default 3600 s) replace the cached ones; the
non-200 error is rethrown wrapped by the surrounding catch. -/
def authenticate (st : ClientState) (now : Nat) (auth : AuthResponse) : OpResult String :=
  if !(optIsTruthy st.clientId && optIsTruthy st.clientSecret) then
    { result := .error "Client ID and Client Secret are required", state := st, authCalls := 1 }
  else if auth.status ≠ 200 then
    { result := .error ("Authentication failed: Authentication failed: " ++
        toString auth.status ++ " - " ++ auth.statusText),
      state := st, authCalls := 1 }
  else
    { result := .ok auth.access_token,
      state := { st with
        accessToken := some auth.access_token,
        tokenExpiry := some (now + (auth.expires_in.getD 3600) * 1000) },
      authCalls := 1 }

/-- `DAPClient.ensureAuthenticated`: return the cached token while it is
valid, otherwise authenticate. -/
def ensureAuthenticated (st : ClientState) (now : Nat) (auth : AuthResponse) : OpResult String :=
  if tokenValid st now then
    { result := .ok (st.accessToken.getD ""), state := st, authCalls := 0 }
  else authenticate st now auth

/-- Propagate an authentication failure out of an operation. -/
def opFail (α : Type) (a : OpResult String) (e : String) : OpResult α :=
  { result := .error e, state := a.state, authCalls := a.authCalls }

/-- `DAPClient.getTables`: authentication gate, then
`response.data.tables || []` on HTTP 200. -/
def getTables (st : ClientState) (now : Nat) (auth : AuthResponse)
    (env : Env JVal) : OpResult JVal :=
  let a := ensureAuthenticated st now auth
  match a.result with
  | .error e => opFail _ a e
  | .ok _ =>
    if env.status ≠ 200 then
      opFail _ a ("Failed to get tables: Failed to get tables: " ++
        toString env.status ++ " - " ++ env.statusText)
    else
      { result := .ok (jsFieldOr env.data "tables" (.jarr [])),
        state := a.state, authCalls := a.authCalls }

/-- `DAPClient.getTableSchema`: authentication gate, then the raw
`response.data` on HTTP 200. -/
def getTableSchema (st : ClientState) (now : Nat) (auth : AuthResponse)
    (env : Env JVal) : OpResult JVal :=
  let a := ensureAuthenticated st now auth
  match a.result with
  | .error e => opFail _ a e
  | .ok _ =>
    if env.status ≠ 200 then
      opFail _ a ("Failed to get table schema: Failed to get table schema: " ++
        toString env.status ++ " - " ++ env.statusText)
    else
      { result := .ok env.data, state := a.state, authCalls := a.authCalls }

/-- A query descriptor: `none` fields model absent JavaScript
properties. -/
structure Query where
  format : String
  since : Option String := none
  until' : Option String := none
  mode : Option String := none
deriving Repr, DecidableEq

/-- The request body `queryTableData` actually sends: `format` always;
`since` when truthy, `until` only when additionally truthy; `mode` when
truthy. -/
def buildRequestBody (query : Query) : Query :=
  let sinceSent := if optIsTruthy query.since then query.since else none
  let untilSent :=
    if optIsTruthy query.since && optIsTruthy query.until' then query.until' else none
  let modeSent := if optIsTruthy query.mode then query.mode else none
  { format := query.format, since := sinceSent, until' := untilSent, mode := modeSent }

/-- Result of a query submission, additionally exposing the request body
that was sent to the vendor API (`none` when the operation failed before
sending). -/
structure SubmitResult where
  result : Except String Job
  state : ClientState
  authCalls : Nat
  sentBody : Option Query
deriving Repr

/-- `DAPClient.queryTableData`: authentication gate, build the request
body (no validation of `since`), send it, accept HTTP 200/202 and return
the job record. -/
def queryTableData (st : ClientState) (now : Nat) (auth : AuthResponse)
    (query : Query) (env : Env Job) : SubmitResult :=
  let a := ensureAuthenticated st now auth
  match a.result with
  | .error e =>
    { result := .error e, state := a.state, authCalls := a.authCalls, sentBody := none }
  | .ok _ =>
    let body := buildRequestBody query
    if env.status ≠ 200 && env.status ≠ 202 then
      { result := .error ("Failed to query table data: Failed to query table data: " ++
          toString env.status ++ " - " ++ env.statusText),
        state := a.state, authCalls := a.authCalls, sentBody := some body }
    else
      { result := .ok env.data, state := a.state, authCalls := a.authCalls,
        sentBody := some body }

/-- `DAPClient.getJobStatus`: authentication gate, 404 means the job is
gone, other non-200/202 statuses fail, otherwise the job record is
returned. -/
def getJobStatus (st : ClientState) (now : Nat) (auth : AuthResponse)
    (jobId : String) (env : Env Job) : OpResult Job :=
  let a := ensureAuthenticated st now auth
  match a.result with
  | .error e => opFail _ a e
  | .ok _ =>
    if env.status = 404 then
      opFail _ a ("Failed to get job status: Job not found or expired: " ++ jobId)
    else if env.status ≠ 200 && env.status ≠ 202 then
      opFail _ a ("Failed to get job status: Failed to get job status: " ++
        toString env.status ++ " - " ++ env.statusText)
    else
      { result := .ok env.data, state := a.state, authCalls := a.authCalls }

/-- The binary-array recovery of `getDownloadUrls`: if `response.data`
is a non-empty array, decode it as character codes and try `JSON.parse`;
when that yields a truthy value with a truthy `urls` property it replaces
the array; finally `responseData.urls || {}` is returned. -/
def getDownloadUrlsData (d : JVal) : JVal :=
  let responseData :=
    match d with
    | .jarr xs =>
      if xs.length > 0 then
        match decodeCharCodes xs with
        | some s =>
          match parseJson s with
          | some p =>
            if jsTruthy p && (jsGetField p "urls").any jsTruthy then p else d
          | none => d
        | none => d
      else d
    | _ => d
  jsFieldOr responseData "urls" (.jobj [])

/-- `DAPClient.getDownloadUrls`: authentication gate, HTTP 200 required,
then the urls mapping with the binary-array recovery applied. -/
def getDownloadUrls (st : ClientState) (now : Nat) (auth : AuthResponse)
    (env : Env JVal) : OpResult JVal :=
  let a := ensureAuthenticated st now auth
  match a.result with
  | .error e => opFail _ a e
  | .ok _ =>
    if env.status ≠ 200 then
      opFail _ a ("Failed to get download URLs: Failed to get download URLs: " ++
        toString env.status ++ " - " ++ env.statusText)
    else
      { result := .ok (getDownloadUrlsData env.data), state := a.state,
        authCalls := a.authCalls }

/-! ## Job polling (`DAPClient.waitForJobCompletion`)

The loop is modelled with explicit time: `polls n` is the outcome of the
`n`-th `getJobStatus` call (its thrown error or its job record), `dur n`
the wall-clock milliseconds that call takes, `pollMs` the sleep between
polls.  `elapsed` plays the role of `new Date() - startTime`. -/

/-- Terminal outcome of the polling loop. -/
inductive WaitResult where
  | success (job : Job)
  | jobFailed (reason : String)
  | timedOut
  | pollError (e : String)
deriving Repr, DecidableEq

/-- Outcome plus the observables the claims mention: the time at which
the loop ended and how many status checks it performed. -/
structure WaitOutcome where
  result : WaitResult
  finalTime : Nat
  polls : Nat
deriving Repr, DecidableEq

/-- The polling loop body of `waitForJobCompletion`: while the elapsed
time is below the timeout, check the status; `completed` and `complete`
both return, `failed` throws at once with the job's error string (or
"Unknown error"), anything else sleeps `pollMs` and retries. -/
def waitLoop (polls : Nat → Except String Job) (dur : Nat → Nat)
    (timeoutMs pollMs : Nat) (hp : 0 < pollMs) (n elapsed : Nat) : WaitOutcome :=
  if _h : elapsed < timeoutMs then
    match polls n with
    | .error e => ⟨.pollError e, elapsed + dur n, n + 1⟩
    | .ok j =>
      if j.status = "completed" || j.status = "complete" then
        ⟨.success j, elapsed + dur n, n + 1⟩
      else if j.status = "failed" then
        ⟨.jobFailed (j.error.getD "Unknown error"), elapsed + dur n, n + 1⟩
      else
        waitLoop polls dur timeoutMs pollMs hp (n + 1) (elapsed + dur n + pollMs)
  else ⟨.timedOut, elapsed, n⟩
termination_by timeoutMs - elapsed
decreasing_by omega

/-- `DAPClient.waitForJobCompletion` with timeout and poll interval given
in seconds (source defaults: 300 and 2). -/
def waitForJobCompletion (polls : Nat → Except String Job) (dur : Nat → Nat)
    (timeout pollInterval : Nat) (hp : 0 < pollInterval) : WaitOutcome :=
  waitLoop polls dur (timeout * 1000) (pollInterval * 1000) (by omega) 0 0

/-- Elapsed milliseconds at the start of poll `k` when polling begins at
index `n` (each earlier poll contributed its duration plus one sleep). -/
def elapsedFrom (dur : Nat → Nat) (pollMs : Nat) (n : Nat) : Nat → Nat
  | 0 => 0
  | k + 1 => dur n + pollMs + elapsedFrom dur pollMs (n + 1) k

/-! ## Query builders -/

/-- A `string | Date` argument of the query builders. -/
inductive TimeArg where
  | date (epochMs : Nat)
  | str (s : String)
deriving Repr, DecidableEq

/-- `x instanceof Date ? x.toISOString() : x`. -/
def timeArgToString : TimeArg → String
  | .date d => jsToISOString d
  | .str s => s

/-- JavaScript truthiness of a `TimeArg` (a `Date` object is truthy, a
string is truthy when non-empty). -/
def timeArgTruthy : TimeArg → Bool
  | .date _ => true
  | .str s => s != ""

/-- `DAPClient.createSnapshotQuery` (first revision: no `type` field). -/
def createSnapshotQuery (format : String) (mode : Option String) : Query :=
  { format := format, mode := optTruthy mode }

/-- `DAPClient.createIncrementalQuery` (first revision): `since` always
set (Date arguments via `toISOString`, strings verbatim), `until` only
when truthy, `mode` only when truthy. -/
def createIncrementalQuery (format : String) (since : TimeArg)
    (until? : Option TimeArg) (mode : Option String) : Query :=
  { format := format,
    since := some (timeArgToString since),
    until' :=
      match until? with
      | some u => if timeArgTruthy u then some (timeArgToString u) else none
      | none => none,
    mode := optTruthy mode }

/-! ## File download (`DAPClient.downloadFile`, first revision) -/

/-- What `downloadFile` can hand back: reconstructed bytes, a string it
could not decode, a structured value passed through as-is, or the
redirect descriptor for oversized files. -/
inductive DLContent where
  | bytes (bs : List Nat)
  | str (s : String)
  | val (v : JVal)
  | redirect (url : String) (message : String)
deriving Repr

/-- The S3-URL test of `downloadFile`: an `amazonaws.com` URL with a
data-file extension triggers a direct fetch before falling back to the
relay. -/
def isS3Url (url : String) : Bool :=
  jsIncludes url "amazonaws.com" &&
    (jsIncludes url ".csv" || jsIncludes url ".gz" ||
     jsIncludes url ".parquet" || jsIncludes url ".jsonl" ||
     jsIncludes url ".tsv")

/-- The relay-mediated part of `downloadFile`: redirect envelopes produce
the redirect descriptor; HTTP non-200 fails; string data is decoded as
URL-safe base64, falling back to raw character codes; array data becomes
bytes through `new Uint8Array`; anything else passes through.  (The
`catch` fallbacks around the array conversion model allocation failures
and are unreachable here.) -/
def downloadFileProxy (env : Env JVal) : Except String DLContent :=
  if (match env.redirect with | some r => r != "" | none => false) && env.status = 302 then
    .ok (.redirect (env.redirect.getD "") "Large file detected. Click to download directly.")
  else if env.status ≠ 200 then
    .error ("Failed to download file: Failed to download file: " ++
      toString env.status ++ " - " ++ env.statusText)
  else
    match env.data with
    | .jstr s =>
      let base64 := (s.replace "-" "+").replace "_" "/"
      match atobDecode base64 with
      | some bs => .ok (.bytes bs)
      | none => .ok (.bytes (s.toList.map charCodeByte))
    | .jarr xs => .ok (.bytes (xs.map jsToUint8))
    | v => .ok (.val v)

/-- `DAPClient.downloadFile`: for S3 data URLs a direct fetch is tried
first (`direct` is its outcome, `none` meaning the fetch failed and the
proxy fallback runs); everything else goes through the relay envelope. -/
def downloadFile (url : String) (direct : Option (List Nat))
    (env : Env JVal) : Except String DLContent :=
  if isS3Url url then
    match direct with
    | some bs => .ok (.bytes bs)
    | none => downloadFileProxy env
  else downloadFileProxy env

/-! ## Composition: `getTableData` and `downloadTableData` -/

/-- Result of `getTableData`, exposing how many status polls ran. -/
structure TableDataResult where
  result : Except String Job
  state : ClientState
  authCalls : Nat
  pollsUsed : Nat
deriving Repr

/-- `DAPClient.getTableData`: submit the query; fail without a job id;
skip polling when the submission already reports `completed` or
`complete`; otherwise poll with the default 300 s timeout and 2 s
interval. -/
def getTableData (st : ClientState) (now : Nat) (auth : AuthResponse)
    (query : Query) (submitEnv : Env Job)
    (polls : Nat → Except String Job) (dur : Nat → Nat) : TableDataResult :=
  let q := queryTableData st now auth query submitEnv
  match q.result with
  | .error e => { result := .error e, state := q.state, authCalls := q.authCalls, pollsUsed := 0 }
  | .ok jobInfo =>
    if !optIsTruthy jobInfo.id then
      { result := .error "No job ID returned from query", state := q.state,
        authCalls := q.authCalls, pollsUsed := 0 }
    else if jobInfo.status = "completed" || jobInfo.status = "complete" then
      { result := .ok jobInfo, state := q.state, authCalls := q.authCalls, pollsUsed := 0 }
    else
      let w := waitForJobCompletion polls dur 300 2 (by omega)
      let r : Except String Job :=
        match w.result with
        | .success j => .ok j
        | .jobFailed reason => .error ("Job failed: " ++ reason)
        | .timedOut => .error "Job timed out after 300 seconds"
        | .pollError e => .error e
      { result := r, state := q.state, authCalls := q.authCalls, pollsUsed := w.polls }

/-- One entry of the download result list. -/
structure FileResult where
  filename : String
  content : Option DLContent := none
  isRedirect : Bool := false
  redirectUrl : Option JVal := none
  message : Option JVal := none
deriving Repr

/-- The `content.type === 'redirect'` test of `downloadTableData`
(a plain object with a `type` property equal to `'redirect'` also
matches, as in JavaScript). -/
def dlIsRedirect : DLContent → Bool
  | .redirect _ _ => true
  | .val v =>
    match jsGetField v "type" with
    | some (.jstr s) => s == "redirect"
    | _ => false
  | _ => false

/-- `content.url` of a redirect result. -/
def dlRedirectUrl : DLContent → Option JVal
  | .redirect u _ => some (.jstr u)
  | .val v => jsGetField v "url"
  | _ => none

/-- `content.message` of a redirect result. -/
def dlRedirectMessage : DLContent → Option JVal
  | .redirect _ m => some (.jstr m)
  | .val v => jsGetField v "message"
  | _ => none

/-- The enumerable own properties iterated by `for (const objId in urlInfo)`
(objects yield their fields; strings and arrays yield index keys). -/
def jsEnumFields : JVal → List (String × JVal)
  | .jobj fields => fields
  | .jarr xs => (List.range xs.length).zip xs |>.map fun p => (toString p.1, p.2)
  | .jstr s => (List.range s.toList.length).zip s.toList |>.map
      fun p => (toString p.1, .jstr (String.mk [p.2]))
  | _ => []

/-- A best-effort JavaScript string coercion for property values used in
URL and filename positions (the payloads of interest are strings). -/
def jsValToString : JVal → String
  | .jstr s => s
  | .jnum n => toString n
  | .jbool b => if b then "true" else "false"
  | .jnull => "null"
  | .jarr _ => ""
  | .jobj _ => "[object Object]"

/-- The download loop of `downloadTableData`: for each entry of the urls
mapping, a truthy `url` property triggers `downloadFile`; redirect
descriptors are surfaced as `isRedirect` file results, other content is
stored verbatim.  Returns the files together with the number of
`downloadFile` calls; a download error aborts the whole operation. -/
def downloadObjects (table : String) (entries : List (String × JVal))
    (direct : String → Option (List Nat)) (fileEnv : String → Env JVal) :
    Except String (List FileResult) × Nat :=
  match entries with
  | [] => (.ok [], 0)
  | (objId, info) :: rest =>
    let urlVal := jsGetField info "url"
    match urlVal with
    | some u =>
      if jsTruthy u then
        let urlStr := jsValToString u
        let filename :=
          match jsGetField info "filename" with
          | some f => if jsTruthy f then jsValToString f else table ++ "_" ++ objId
          | none => table ++ "_" ++ objId
        match downloadFile urlStr (direct urlStr) (fileEnv urlStr) with
        | .error e => (.error e, 1)
        | .ok content =>
          let fr : FileResult :=
            if dlIsRedirect content then
              { filename := filename, isRedirect := true,
                redirectUrl := dlRedirectUrl content,
                message := dlRedirectMessage content }
            else { filename := filename, content := some content }
          match downloadObjects table rest direct fileEnv with
          | (.error e, c) => (.error e, c + 1)
          | (.ok files, c) => (.ok (fr :: files), c + 1)
      else downloadObjects table rest direct fileEnv
    | none => downloadObjects table rest direct fileEnv

/-- Outcome of `downloadTableData`, with call counters for the URL
resolution and download phases. -/
structure DownloadOutcome where
  result : Except String (List FileResult)
  urlCalls : Nat
  downloadCalls : Nat
deriving Repr

/-- `DAPClient.downloadTableData`: run the query to completion; an empty
(or absent) object list short-circuits to `{files: []}` without touching
URL resolution or download; otherwise resolve URLs and download each
file. -/
def downloadTableData (st : ClientState) (now : Nat) (auth : AuthResponse)
    (table : String) (query : Query) (submitEnv : Env Job)
    (polls : Nat → Except String Job) (dur : Nat → Nat)
    (urlEnv : Env JVal) (direct : String → Option (List Nat))
    (fileEnv : String → Env JVal) : DownloadOutcome :=
  let t := getTableData st now auth query submitEnv polls dur
  match t.result with
  | .error e => { result := .error e, urlCalls := 0, downloadCalls := 0 }
  | .ok jobInfo =>
    let objectIds := (jobInfo.objects.getD []).map ObjRef.id
    if objectIds.length = 0 then
      { result := .ok [], urlCalls := 0, downloadCalls := 0 }
    else
      let u := getDownloadUrls t.state now auth urlEnv
      match u.result with
      | .error e => { result := .error e, urlCalls := 1, downloadCalls := 0 }
      | .ok urlInfo =>
        let dl := downloadObjects table (jsEnumFields urlInfo) direct fileEnv
        { result := dl.1, urlCalls := 1, downloadCalls := dl.2 }

/-! ## The relay (`api/proxy.js`) and the preflight relay (`api/cors-proxy.js`)

A handler receives the incoming HTTP request and, for the branches that
perform the wrapped call, the upstream (axios) response as a parameter.
Its result records the HTTP status, the CORS headers the claims talk
about, the JSON envelope body, and how many outbound calls were made. -/

/-- The wrapped-call description in the relay request body. -/
structure ReqBody where
  url : String
  rmethod : Option String := none
  rdata : Option JVal := none
deriving Repr

/-- An incoming HTTP request to a relay function. -/
structure HandlerReq where
  method : String
  origin : Option String := none
  body : Option ReqBody := none
deriving Repr

/-- The data of the upstream (axios) response: a byte buffer, a
structured JSON value, or a plain string. -/
inductive UpData where
  | buf (bs : List Nat)
  | sval (v : JVal)
  | ustr (s : String)
deriving Repr

/-- The upstream (axios) response handed to the relay when it performs
the wrapped call. -/
structure Upstream where
  status : Nat
  statusText : String := ""
  contentType : Option String := none
  data : UpData
deriving Repr

/-- The JSON envelope body a relay response carries. -/
structure EnvOut where
  data : Option JVal := none
  status : Option Nat := none
  statusText : Option String := none
  isBinary : Bool := false
  redirect : Option String := none
  error : Option String := none
deriving Repr

/-- A relay response: HTTP status, the CORS headers of interest, the
envelope body (`none` for the empty preflight body), and the number of
outbound HTTP calls the relay performed while producing it. -/
structure RelayResult where
  httpStatus : Nat
  allowOrigin : Option String := none
  allowCredentials : Bool := false
  envelope : Option EnvOut := none
  outboundCalls : Nat := 0
deriving Repr

/-- The data-file extension list of `api/proxy.js`. -/
def fileExtensions : List String :=
  [".gz", ".csv", ".parquet", ".zip", ".json", ".jsonl", ".tsv", ".txt"]

/-- `isBinaryDownload`: extension or object-endpoint heuristics. -/
def isBinaryDownloadUrl (url : String) : Bool :=
  fileExtensions.any (jsIncludes url) ||
    jsIncludes url "/dap/object/url" || jsIncludes url "/dap/object/"

/-- `isS3FileDownload`: a signed S3 URL with a data-file extension, which
the relay redirects instead of proxying. -/
def isS3FileDownload (url : String) : Bool :=
  jsIncludes url "amazonaws.com" &&
    (jsIncludes url "X-Amz-Algorithm" || jsIncludes url "X-Amz-Signature") &&
    fileExtensions.any (jsIncludes url)

/-- Whether the upstream content type contains any of the given
fragments. -/
def contentTypeHas (ct : Option String) (frag : String) : Bool :=
  match ct with
  | some s => jsIncludes s frag
  | none => false

/-- The upstream data as a byte buffer, as the binary branch's
`Buffer.from` conversions produce (`none` models the exception thrown on
a plain object, which the surrounding catch turns into a 500). -/
def upToBuffer : UpData → Option (List Nat)
  | .buf bs => some bs
  | .ustr s => some (utf8Encode s)
  | .sval (.jarr xs) => some (xs.map jsToUint8)
  | .sval _ => none

/-- The JSON-vs-binary classification and envelope construction of
`api/proxy.js` after the upstream call returned. -/
def classifyAndRespond (url : String) (up : Upstream) : RelayResult :=
  let isBinaryDownload := isBinaryDownloadUrl url
  let isJsonResponse :=
    contentTypeHas up.contentType "application/json" ||
      (match up.data with
       | .sval (.jobj _) => true
       | .sval (.jarr _) => true
       | .sval .jnull => true
       | _ => false)
  let isBinaryResponse :=
    contentTypeHas up.contentType "application/octet-stream" ||
    contentTypeHas up.contentType "application/gzip" ||
    contentTypeHas up.contentType "application/zip" ||
    contentTypeHas up.contentType "application/x-gzip" ||
    contentTypeHas up.contentType "application/parquet" ||
    isBinaryDownload ||
    (match up.data with | .buf _ => true | _ => false)
  if isJsonResponse && !isBinaryResponse then
    let jsonData : JVal :=
      match up.data with
      | .sval v => v
      | .ustr s => .jstr s
      | .buf _ => .jnull
    let e : EnvOut :=
      { data := some jsonData, status := some up.status, statusText := some up.statusText }
    { httpStatus := 200, allowOrigin := some "*", envelope := some e, outboundCalls := 1 }
  else if isBinaryResponse then
    match upToBuffer up.data with
    | none =>
      let e : EnvOut :=
        { error := some "Failed to process binary response",
          status := some up.status, statusText := some up.statusText }
      { httpStatus := 500, allowOrigin := some "*", envelope := some e, outboundCalls := 1 }
    | some buffer =>
      let recovered : Option JVal :=
        if jsIncludes url "/dap/object/url" then
          let textContent := utf8Decode buffer
          if textContent.startsWith "\x7b" && jsIncludes textContent "\x22urls\x22" then
            parseJson textContent
          else none
        else none
      match recovered with
      | some jsonData =>
        let e : EnvOut :=
          { data := some jsonData, status := some up.status, statusText := some up.statusText }
        { httpStatus := 200, allowOrigin := some "*", envelope := some e, outboundCalls := 1 }
      | none =>
        let e : EnvOut :=
          { data := some (.jarr (buffer.map fun (b : Nat) => .jnum b)), status := some up.status,
            statusText := some up.statusText, isBinary := true }
        { httpStatus := 200, allowOrigin := some "*", envelope := some e, outboundCalls := 1 }
  else
    let textData : JVal :=
      match up.data with
      | .buf bs => .jstr (utf8Decode bs)
      | .sval v => v
      | .ustr s => .jstr s
    let e : EnvOut :=
      { data := some textData, status := some up.status, statusText := some up.statusText }
    { httpStatus := 200, allowOrigin := some "*", envelope := some e, outboundCalls := 1 }

/-- `api/proxy.js`: always sets `Access-Control-Allow-Origin: *` (and no
credentials header); answers OPTIONS itself with an empty 200; rejects
non-POST; requires a truthy `url`; short-circuits signed S3 data URLs
into a redirect envelope without any outbound call; otherwise performs
the wrapped call and classifies the response. -/
def proxyHandler (req : HandlerReq) (up : Upstream) : RelayResult :=
  if req.method = "OPTIONS" then
    { httpStatus := 200, allowOrigin := some "*" }
  else if req.method ≠ "POST" then
    { httpStatus := 405, allowOrigin := some "*",
      envelope := some { error := some "Method not allowed" } }
  else
    match req.body with
    | none =>
      { httpStatus := 400, allowOrigin := some "*",
        envelope := some { error := some "URL is required" } }
    | some rb =>
      if rb.url = "" then
        { httpStatus := 400, allowOrigin := some "*",
          envelope := some { error := some "URL is required" } }
      else if isS3FileDownload rb.url then
        let e : EnvOut :=
          { redirect := some rb.url, status := some 302, statusText := some "Redirect to S3" }
        { httpStatus := 200, allowOrigin := some "*", envelope := some e, outboundCalls := 0 }
      else classifyAndRespond rb.url up

/-- The preflight-first relay of `api/cors-proxy.js` (second revision):
OPTIONS is answered first with 204, echoing the request origin (or `*`)
and allowing credentials; other methods set the same CORS headers, then
GET/POST proxy the wrapped call and mirror the upstream response. -/
def corsProxyHandler (req : HandlerReq) (up : Upstream) : RelayResult :=
  if req.method = "OPTIONS" then
    { httpStatus := 204, allowOrigin := some (req.origin.getD "*"),
      allowCredentials := true }
  else if req.method ≠ "POST" && req.method ≠ "GET" then
    { httpStatus := 405, allowOrigin := some (req.origin.getD "*"),
      allowCredentials := true,
      envelope := some { error := some "Only GET and POST methods are allowed" } }
  else
    match req.body with
    | none =>
      { httpStatus := 400, allowOrigin := some (req.origin.getD "*"),
        allowCredentials := true,
        envelope := some { error := some "URL is required" } }
    | some rb =>
      if rb.url = "" then
        { httpStatus := 400, allowOrigin := some (req.origin.getD "*"),
          allowCredentials := true,
          envelope := some { error := some "URL is required" } }
      else
        let v : JVal :=
          match up.data with
          | .sval w => w
          | .ustr s => .jstr s
          | .buf bs => .jarr (bs.map fun (b : Nat) => .jnum b)
        let e : EnvOut :=
          { data := some v, status := some up.status, statusText := some up.statusText }
        { httpStatus := up.status, allowOrigin := some (req.origin.getD "*"),
          allowCredentials := true, envelope := some e, outboundCalls := 1 }

/-! ## Lemmas about the polling loop -/

/-- A successful polling loop can only carry a job whose status is
`completed` or `complete` (fuel-indexed induction over the loop). -/
theorem waitLoop_success_status_aux (polls : Nat → Except String Job) (dur : Nat → Nat)
    (timeoutMs pollMs : Nat) (hp : 0 < pollMs) :
    ∀ fuel n elapsed j, timeoutMs - elapsed ≤ fuel →
      (waitLoop polls dur timeoutMs pollMs hp n elapsed).result = .success j →
      j.status = "completed" ∨ j.status = "complete" := by
  intro fuel
  induction fuel with
  | zero =>
    intro n elapsed j hle h
    have hge : ¬ elapsed < timeoutMs := by omega
    rw [waitLoop, dif_neg hge] at h
    exact absurd h (by simp)
  | succ m ih =>
    intro n elapsed j hle h
    by_cases hlt : elapsed < timeoutMs
    · rw [waitLoop, dif_pos hlt] at h
      cases hpn : polls n with
      | error e => simp only [hpn] at h; exact absurd h (by simp)
      | ok jp =>
        simp only [hpn] at h
        by_cases hc1 : jp.status = "completed"
        · simp [hc1] at h
          subst h
          exact Or.inl hc1
        · by_cases hc2 : jp.status = "complete"
          · simp [hc1, hc2] at h
            subst h
            exact Or.inr hc2
          · by_cases hfail : jp.status = "failed"
            · simp [hc1, hc2, hfail] at h
            · simp [hc1, hc2, hfail] at h
              exact ih (n + 1) (elapsed + dur n + pollMs) j (by omega) h
    · rw [waitLoop, dif_neg hlt] at h
      exact absurd h (by simp)

/-- If the `k`-th polled status is `failed` and every earlier status is
non-terminal, with every status check happening inside the timeout
window, the loop throws `Job failed` at once with the job's error string
(default "Unknown error") after exactly `k + 1` status checks. -/
theorem waitLoop_fail_at (polls : Nat → Except String Job) (dur : Nat → Nat)
    (timeoutMs pollMs : Nat) (hp : 0 < pollMs) :
    ∀ k n elapsed jf,
      (∀ i, i < k → ∃ ji, polls (n + i) = .ok ji ∧
        (ji.status = "completed" || ji.status = "complete") = false ∧
        ji.status ≠ "failed") →
      (∀ i, i ≤ k → elapsed + elapsedFrom dur pollMs n i < timeoutMs) →
      polls (n + k) = .ok jf → jf.status = "failed" →
      waitLoop polls dur timeoutMs pollMs hp n elapsed =
        ⟨.jobFailed (jf.error.getD "Unknown error"),
         elapsed + elapsedFrom dur pollMs n k + dur (n + k), n + k + 1⟩ := by
  intro k
  induction k with
  | zero =>
    intro n elapsed jf _hpre htime hk hf
    have hlt : elapsed < timeoutMs := by
      have := htime 0 (Nat.le_refl 0); simpa [elapsedFrom] using this
    rw [Nat.add_zero] at hk
    rw [waitLoop, dif_pos hlt]
    simp only [hk]
    simp [hf, elapsedFrom]
  | succ m ih =>
    intro n elapsed jf hpre htime hk hf
    have hlt : elapsed < timeoutMs := by
      have := htime 0 (Nat.zero_le _); simpa [elapsedFrom] using this
    obtain ⟨j0, hj0, hj0nc, hj0nf⟩ := hpre 0 (Nat.succ_pos m)
    rw [Nat.add_zero] at hj0
    rw [waitLoop, dif_pos hlt]
    simp only [hj0]
    rw [if_neg (by simp [hj0nc]), if_neg hj0nf]
    have hrec := ih (n + 1) (elapsed + dur n + pollMs) jf
      (fun i hi => by
        obtain ⟨ji, hji, h1, h2⟩ := hpre (i + 1) (by omega)
        have e1 : n + 1 + i = n + (i + 1) := by omega
        exact ⟨ji, by rw [e1]; exact hji, h1, h2⟩)
      (fun i hi => by
        have := htime (i + 1) (by omega)
        simp only [elapsedFrom] at this
        omega)
      (by have e1 : n + 1 + m = n + (m + 1) := by omega
          rw [e1]; exact hk) hf
    rw [hrec]
    simp only [elapsedFrom, WaitOutcome.mk.injEq]
    have harg : n + 1 + m = n + (m + 1) := by omega
    rw [harg]
    refine ⟨by trivial, by omega, by omega⟩

/-- If the loop times out, the time at which it gives up exceeds the
timeout by less than one poll interval plus one status-check duration
(fuel-indexed induction with the entry-time invariant). -/
theorem waitLoop_timeout_aux (polls : Nat → Except String Job) (dur : Nat → Nat)
    (timeoutMs pollMs : Nat) (hp : 0 < pollMs) (D : Nat) (hD : ∀ i, dur i ≤ D) :
    ∀ fuel n elapsed, timeoutMs - elapsed ≤ fuel →
      elapsed < timeoutMs + D + pollMs →
      (waitLoop polls dur timeoutMs pollMs hp n elapsed).result = .timedOut →
      (waitLoop polls dur timeoutMs pollMs hp n elapsed).finalTime <
        timeoutMs + D + pollMs := by
  intro fuel
  induction fuel with
  | zero =>
    intro n elapsed hle hentry _hres
    have hge : ¬ elapsed < timeoutMs := by omega
    rw [waitLoop, dif_neg hge]
    exact hentry
  | succ m ih =>
    intro n elapsed hle hentry hres
    by_cases hlt : elapsed < timeoutMs
    · rw [waitLoop, dif_pos hlt] at hres ⊢
      cases hpn : polls n with
      | error e => simp only [hpn] at hres; exact absurd hres (by simp)
      | ok jp =>
        simp only [hpn] at hres ⊢
        by_cases hc1 : jp.status = "completed"
        · simp [hc1] at hres
        · by_cases hc2 : jp.status = "complete"
          · simp [hc1, hc2] at hres
          · by_cases hfail : jp.status = "failed"
            · simp [hc1, hc2, hfail] at hres
            · simp [hc1, hc2, hfail] at hres ⊢
              have hdn := hD n
              exact ih (n + 1) (elapsed + dur n + pollMs) (by omega) (by omega) hres
    · rw [waitLoop, dif_neg hlt]
      exact hentry

/-! ## Claim C1: behaviour of `waitForJobCompletion` -/

/-- Claim C1 as stated is refuted on this poll sequence: the very first
poll reports status `complete`, and the loop returns that job record even
though its status is not `completed`. -/
def c1pollsComplete : Nat → Except String Job := fun _ => .ok { status := "complete" }

/-- Claim C1 (counterexample): `waitForJobCompletion` returns a job
record whose status is `complete`, not `completed`, so the claim's
"returns a job record only when its status is completed" is false as
stated. -/
theorem c1_await_completion_counterexample :
    (waitForJobCompletion c1pollsComplete (fun _ => 1) 300 2 (by norm_num)).result =
      .success { status := "complete" } ∧
    ({ status := "complete" : Job }).status ≠ "completed" := by
  constructor
  · unfold waitForJobCompletion
    rw [waitLoop, dif_pos (by norm_num : (0:Nat) < 300 * 1000)]
    simp [c1pollsComplete]
  · decide

/-- Claim C1 (amended): `waitForJobCompletion` returns a job record only
when its status is `completed` or `complete`; if the `k`-th polled status
is `failed` (all earlier polls non-terminal and every check inside the
timeout window) it raises `Job failed` carrying the job's error string
(or "Unknown error" when absent) immediately, after exactly `k + 1`
status checks; and when no terminal status is observed it raises the
timeout error at a moment that exceeds `timeoutSeconds` by less than one
poll interval plus one status-check duration. -/
theorem c1_await_completion_amended
    (polls : Nat → Except String Job) (dur : Nat → Nat)
    (timeout pollInterval : Nat) (hp : 0 < pollInterval) :
    (∀ j, (waitForJobCompletion polls dur timeout pollInterval hp).result = .success j →
      j.status = "completed" ∨ j.status = "complete") ∧
    (∀ k jf,
      (∀ i, i < k → ∃ ji, polls i = .ok ji ∧
        (ji.status = "completed" || ji.status = "complete") = false ∧
        ji.status ≠ "failed") →
      (∀ i, i ≤ k → elapsedFrom dur (pollInterval * 1000) 0 i < timeout * 1000) →
      polls k = .ok jf → jf.status = "failed" →
      waitForJobCompletion polls dur timeout pollInterval hp =
        ⟨.jobFailed (jf.error.getD "Unknown error"),
         elapsedFrom dur (pollInterval * 1000) 0 k + dur k, k + 1⟩) ∧
    (∀ D, (∀ i, dur i ≤ D) →
      (waitForJobCompletion polls dur timeout pollInterval hp).result = .timedOut →
      (waitForJobCompletion polls dur timeout pollInterval hp).finalTime <
        timeout * 1000 + D + pollInterval * 1000) := by
  have hpm : 0 < pollInterval * 1000 := by omega
  refine ⟨?_, ?_, ?_⟩
  · intro j h
    unfold waitForJobCompletion at h
    exact waitLoop_success_status_aux polls dur (timeout * 1000) (pollInterval * 1000)
      hpm (timeout * 1000) 0 0 j (Nat.le_refl _) h
  · intro k jf hpre htime hk hf
    unfold waitForJobCompletion
    have hh := waitLoop_fail_at polls dur (timeout * 1000) (pollInterval * 1000) hpm
      k 0 0 jf
      (fun i hi => by
        obtain ⟨ji, h1, h2, h3⟩ := hpre i hi
        exact ⟨ji, by rw [Nat.zero_add]; exact h1, h2, h3⟩)
      (fun i hi => by
        have := htime i hi
        omega)
      (by rw [Nat.zero_add]; exact hk) hf
    rw [hh]
    simp
  · intro D hD hres
    unfold waitForJobCompletion at hres ⊢
    exact waitLoop_timeout_aux polls dur (timeout * 1000) (pollInterval * 1000) hpm
      D hD (timeout * 1000) 0 0 (Nat.le_refl _) (by omega) hres

/-- A poll sequence whose first status is non-terminal and whose second
report is a failure carrying a reason string. -/
def c1pollsFail : Nat → Except String Job := fun n =>
  if n = 0 then .ok { status := "running" }
  else .ok { status := "failed", error := some "quota exceeded" }

/-- Witness for the amended claim C1: with a 7 ms status check and the
default 300 s / 2 s parameters, a failure on the second poll surfaces as
`Job failed: quota exceeded` after exactly two status checks, 2014 ms in. -/
theorem c1_await_completion_witness :
    waitForJobCompletion c1pollsFail (fun _ => 7) 300 2 (by norm_num) =
      ⟨.jobFailed "quota exceeded", 2014, 2⟩ := by
  have h := (c1_await_completion_amended c1pollsFail (fun _ => 7) 300 2 (by norm_num)).2.1
    1 { status := "failed", error := some "quota exceeded" }
    (by
      intro i hi
      have hi0 : i = 0 := by omega
      subst hi0
      exact ⟨{ status := "running" }, rfl, by decide, by decide⟩)
    (by decide)
    rfl rfl
  simpa [elapsedFrom] using h

/-! ## Claim C10: the `complete` status alias -/

/-- Claim C10: both `waitForJobCompletion` and `getTableData` accept the
undocumented status string `complete` exactly like `completed`: the loop
returns the job record on either status at the first poll, and
`getTableData` skips polling entirely when the submit response already
carries either status. -/
theorem c10_complete_alias :
    (∀ (polls : Nat → Except String Job) (dur : Nat → Nat) (t p : Nat) (hp : 0 < p)
      (j : Job), 0 < t → polls 0 = .ok j → j.status = "complete" →
      waitForJobCompletion polls dur t p hp = ⟨.success j, dur 0, 1⟩) ∧
    (∀ (polls : Nat → Except String Job) (dur : Nat → Nat) (t p : Nat) (hp : 0 < p)
      (j : Job), 0 < t → polls 0 = .ok j → j.status = "completed" →
      waitForJobCompletion polls dur t p hp = ⟨.success j, dur 0, 1⟩) ∧
    (∀ (st : ClientState) (now : Nat) (auth : AuthResponse) (query : Query)
      (submitEnv : Env Job) (polls : Nat → Except String Job) (dur : Nat → Nat),
      tokenValid st now = true → submitEnv.status = 200 →
      optIsTruthy submitEnv.data.id = true →
      (submitEnv.data.status = "complete" ∨ submitEnv.data.status = "completed") →
      getTableData st now auth query submitEnv polls dur =
        { result := .ok submitEnv.data, state := st, authCalls := 0, pollsUsed := 0 }) := by
  refine ⟨?_, ?_, ?_⟩
  · intro polls dur t p hp j ht hpoll hstat
    unfold waitForJobCompletion
    rw [waitLoop, dif_pos (by omega : (0:Nat) < t * 1000)]
    simp [hpoll, hstat]
  · intro polls dur t p hp j ht hpoll hstat
    unfold waitForJobCompletion
    rw [waitLoop, dif_pos (by omega : (0:Nat) < t * 1000)]
    simp [hpoll, hstat]
  · intro st now auth query submitEnv polls dur htok hst hid hstat
    rcases hstat with h | h <;>
      simp [getTableData, queryTableData, ensureAuthenticated, htok, hst, hid, h]

/-- Witness for claim C10: a concrete loop run returning on `complete`,
and a concrete submission already marked `complete` that skips polling. -/
theorem c10_complete_alias_witness :
    waitForJobCompletion (fun _ => .ok { status := "complete" }) (fun _ => 3) 60 2
        (by norm_num) = ⟨.success { status := "complete" }, 3, 1⟩ ∧
    getTableData { accessToken := some "tok", tokenExpiry := some 10 } 5
        { status := 200 } { format := "csv" }
        { data := { id := some "j1", status := "complete" }, status := 200 }
        (fun _ => .ok { status := "running" }) (fun _ => 1) =
      { result := .ok { id := some "j1", status := "complete" }, state :=
          { accessToken := some "tok", tokenExpiry := some 10 },
        authCalls := 0, pollsUsed := 0 } := by
  constructor
  · exact c10_complete_alias.1 _ _ 60 2 (by norm_num) _ (by norm_num) rfl rfl
  · exact c10_complete_alias.2.2 _ 5 _ _ _ _ _ (by decide) rfl (by decide) (Or.inl rfl)

/-! ## Claim C2: the authentication gate -/

/-- `ensureAuthenticated` performs no authentication on a valid token and
exactly one otherwise. -/
theorem ensureAuthenticated_authCalls (st : ClientState) (now : Nat) (auth : AuthResponse) :
    (ensureAuthenticated st now auth).authCalls = if tokenValid st now then 0 else 1 := by
  unfold ensureAuthenticated authenticate
  split_ifs <;> rfl

/-- `getTables` inherits its authentication count from the gate. -/
theorem getTables_authCalls (st : ClientState) (now : Nat) (auth : AuthResponse)
    (env : Env JVal) :
    (getTables st now auth env).authCalls = (ensureAuthenticated st now auth).authCalls := by
  unfold getTables
  cases hres : (ensureAuthenticated st now auth).result with
  | error e => simp only [hres]; rfl
  | ok t => simp only [hres]; split_ifs <;> rfl

/-- `getTableSchema` inherits its authentication count from the gate. -/
theorem getTableSchema_authCalls (st : ClientState) (now : Nat) (auth : AuthResponse)
    (env : Env JVal) :
    (getTableSchema st now auth env).authCalls = (ensureAuthenticated st now auth).authCalls := by
  unfold getTableSchema
  cases hres : (ensureAuthenticated st now auth).result with
  | error e => simp only [hres]; rfl
  | ok t => simp only [hres]; split_ifs <;> rfl

/-- `queryTableData` inherits its authentication count from the gate. -/
theorem queryTableData_authCalls (st : ClientState) (now : Nat) (auth : AuthResponse)
    (q : Query) (env : Env Job) :
    (queryTableData st now auth q env).authCalls =
      (ensureAuthenticated st now auth).authCalls := by
  unfold queryTableData
  cases hres : (ensureAuthenticated st now auth).result with
  | error e => simp only [hres]
  | ok t => simp only [hres]; split_ifs <;> rfl

/-- `getJobStatus` inherits its authentication count from the gate. -/
theorem getJobStatus_authCalls (st : ClientState) (now : Nat) (auth : AuthResponse)
    (jobId : String) (env : Env Job) :
    (getJobStatus st now auth jobId env).authCalls =
      (ensureAuthenticated st now auth).authCalls := by
  unfold getJobStatus
  cases hres : (ensureAuthenticated st now auth).result with
  | error e => simp only [hres]; rfl
  | ok t => simp only [hres]; split_ifs <;> rfl

/-- `getDownloadUrls` inherits its authentication count from the gate. -/
theorem getDownloadUrls_authCalls (st : ClientState) (now : Nat) (auth : AuthResponse)
    (env : Env JVal) :
    (getDownloadUrls st now auth env).authCalls =
      (ensureAuthenticated st now auth).authCalls := by
  unfold getDownloadUrls
  cases hres : (ensureAuthenticated st now auth).result with
  | error e => simp only [hres]; rfl
  | ok t => simp only [hres]; split_ifs <;> rfl

/-- Claim C2: `ensureAuthenticated` returns the cached access token with
the state unchanged when a token exists and `now` is strictly before its
expiry; otherwise it performs exactly one `authenticate` call, which on
success replaces both the token and the expiry (`now + expires_in * 1000`
milliseconds, `expires_in` defaulting to 3600); and each of the five
client operations runs the gate first, authenticating exactly once when
the token is invalid and never when it is valid. -/
theorem c2_auth_gate
    (st : ClientState) (now : Nat) (auth : AuthResponse)
    (envT envS envU : Env JVal) (q : Query) (envQ envJ : Env Job) (jobId : String) :
    (tokenValid st now = true →
      ensureAuthenticated st now auth =
        { result := .ok (st.accessToken.getD ""), state := st, authCalls := 0 }) ∧
    (tokenValid st now = false →
      ensureAuthenticated st now auth = authenticate st now auth) ∧
    ((authenticate st now auth).authCalls = 1) ∧
    ((optIsTruthy st.clientId && optIsTruthy st.clientSecret) = true →
      auth.status = 200 →
      (authenticate st now auth).result = .ok auth.access_token ∧
      (authenticate st now auth).state.accessToken = some auth.access_token ∧
      (authenticate st now auth).state.tokenExpiry =
        some (now + auth.expires_in.getD 3600 * 1000)) ∧
    ((getTables st now auth envT).authCalls = if tokenValid st now then 0 else 1) ∧
    ((getTableSchema st now auth envS).authCalls = if tokenValid st now then 0 else 1) ∧
    ((queryTableData st now auth q envQ).authCalls = if tokenValid st now then 0 else 1) ∧
    ((getJobStatus st now auth jobId envJ).authCalls = if tokenValid st now then 0 else 1) ∧
    ((getDownloadUrls st now auth envU).authCalls = if tokenValid st now then 0 else 1) := by
  refine ⟨?_, ?_, ?_, ?_, ?_, ?_, ?_, ?_, ?_⟩
  · intro h; simp [ensureAuthenticated, h]
  · intro h; simp [ensureAuthenticated, h]
  · unfold authenticate; split_ifs <;> rfl
  · intro hc hs
    refine ⟨?_, ?_, ?_⟩ <;> simp [authenticate, hc, hs]
  · rw [getTables_authCalls, ensureAuthenticated_authCalls]
  · rw [getTableSchema_authCalls, ensureAuthenticated_authCalls]
  · rw [queryTableData_authCalls, ensureAuthenticated_authCalls]
  · rw [getJobStatus_authCalls, ensureAuthenticated_authCalls]
  · rw [getDownloadUrls_authCalls, ensureAuthenticated_authCalls]

/-- A client state whose cached token has expired. -/
def c2stExpired : ClientState :=
  { clientId := some "cid", clientSecret := some "sec",
    accessToken := some "old", tokenExpiry := some 5 }

/-- A client state with a valid cached token. -/
def c2stValid : ClientState :=
  { clientId := some "cid", clientSecret := some "sec",
    accessToken := some "tok", tokenExpiry := some 99 }

/-- A successful authentication response. -/
def c2auth : AuthResponse :=
  { status := 200, access_token := "fresh", expires_in := some 60 }

/-- Witness for claim C2 at concrete states: an expired token routes the
gate through one `authenticate` that installs the fresh token with expiry
`10 + 60 * 1000`, while a valid token serves `getTables` with zero
authentication calls and `ensureAuthenticated` returns the cache
unchanged. -/
theorem c2_auth_gate_witness :
    ensureAuthenticated c2stExpired 10 c2auth = authenticate c2stExpired 10 c2auth ∧
    (authenticate c2stExpired 10 c2auth).state.accessToken = some "fresh" ∧
    (authenticate c2stExpired 10 c2auth).state.tokenExpiry = some (10 + 60 * 1000) ∧
    ensureAuthenticated c2stValid 10 c2auth =
      { result := .ok "tok", state := c2stValid, authCalls := 0 } ∧
    (getTables c2stValid 10 c2auth { data := .jnull, status := 200 }).authCalls = 0 ∧
    (getTables c2stExpired 10 c2auth { data := .jnull, status := 200 }).authCalls = 1 := by
  have hexp := c2_auth_gate c2stExpired 10 c2auth
    { data := .jnull, status := 200 } { data := .jnull, status := 200 }
    { data := .jnull, status := 200 } { format := "csv" }
    { data := {}, status := 200 } { data := {}, status := 200 } "j"
  have hval := c2_auth_gate c2stValid 10 c2auth
    { data := .jnull, status := 200 } { data := .jnull, status := 200 }
    { data := .jnull, status := 200 } { format := "csv" }
    { data := {}, status := 200 } { data := {}, status := 200 } "j"
  refine ⟨hexp.2.1 (by decide), (hexp.2.2.2.1 (by decide) rfl).2.1,
    (hexp.2.2.2.1 (by decide) rfl).2.2, ?_, ?_, ?_⟩
  · have := hval.1 (by decide)
    simpa [c2stValid] using this
  · have := hval.2.2.2.2.1
    simpa using this
  · have := hexp.2.2.2.2.1
    simpa using this

/-! ## Claim C3: binary envelope round trip -/

/-- `ToUint8` is the identity on byte values. -/
theorem jsToUint8_byte (b : Nat) (hb : b < 256) : jsToUint8 (JVal.jnum (b : Nat)) = b := by
  show ((b : Int) % 256).toNat = b
  omega

/-- The array branch of the relay-mediated download: an array payload on
HTTP 200 is decoded through `new Uint8Array`. -/
theorem downloadFileProxy_array (xs : List JVal) (stext : String) (isB : Bool) :
    downloadFileProxy (Env.mk (.jarr xs) 200 stext none isB) =
      .ok (.bytes (xs.map jsToUint8)) := rfl

/-- Reconstructing a serialized byte array yields the original bytes. -/
theorem map_jsToUint8_bytes (bs : List Nat) (hb : ∀ b ∈ bs, b < 256) :
    (bs.map fun (b : Nat) => JVal.jnum b).map jsToUint8 = bs := by
  induction bs with
  | nil => rfl
  | cons x xs ih =>
    simp only [List.map_cons]
    rw [jsToUint8_byte x (hb x (List.mem_cons_self x xs)),
      ih fun b hbm => hb b (List.mem_cons_of_mem x hbm)]

/-- Claim C3: a byte buffer flowing through the relay's binary envelope
path (serialized as an array of numbers with `isBinary: true`) and then
decoded by the downloader's array branch is reconstructed byte for byte.
The URL hypotheses select the plain binary path: a data-file URL that is
neither the signed-S3 redirect shortcut, nor the URL-resolution endpoint,
nor a direct-S3 download on the client side. -/
theorem c3_binary_roundtrip
    (bs : List Nat) (rb : ReqBody) (up : Upstream)
    (hb : ∀ b ∈ bs, b < 256)
    (hne : rb.url ≠ "")
    (hu1 : isS3FileDownload rb.url = false)
    (hu2 : jsIncludes rb.url "/dap/object/url" = false)
    (hu3 : isBinaryDownloadUrl rb.url = true)
    (hu4 : isS3Url rb.url = false)
    (hdata : up.data = .buf bs) :
    proxyHandler { method := "POST", body := some rb } up =
      { httpStatus := 200, allowOrigin := some "*",
        envelope := some { data := some (.jarr (bs.map fun (b : Nat) => JVal.jnum b)),
                           status := some up.status, statusText := some up.statusText,
                           isBinary := true },
        outboundCalls := 1 } ∧
    downloadFile rb.url none
        { data := .jarr (bs.map fun (b : Nat) => JVal.jnum b), status := 200,
          isBinary := true } =
      .ok (.bytes bs) := by
  constructor
  · simp [proxyHandler, classifyAndRespond, hne, hu1, hu2, hu3, hdata, upToBuffer]
  · simp only [downloadFile, hu4, Bool.false_eq_true, if_false]
    rw [downloadFileProxy_array, map_jsToUint8_bytes bs hb]

/-- The bytes of the round-trip witness. -/
def c3bytes : List Nat := [0, 1, 127, 128, 200, 255]

/-- The witness request: a gzip data file behind a non-S3 host. -/
def c3req : ReqBody := { url := "https://files.example.edu/export/archive.gz" }

/-- Witness for claim C3: the concrete byte buffer `[0, 1, 127, 128,
200, 255]` survives the relay envelope and the downloader decode
byte for byte. -/
theorem c3_binary_roundtrip_witness :
    proxyHandler { method := "POST", body := some c3req }
        { status := 200, statusText := "OK",
          contentType := some "application/octet-stream", data := .buf c3bytes } =
      { httpStatus := 200, allowOrigin := some "*",
        envelope := some { data := some (.jarr (c3bytes.map fun (b : Nat) => JVal.jnum b)),
                           status := some 200, statusText := some "OK",
                           isBinary := true },
        outboundCalls := 1 } ∧
    downloadFile c3req.url none
        { data := .jarr (c3bytes.map fun (b : Nat) => JVal.jnum b), status := 200,
          isBinary := true } =
      .ok (.bytes c3bytes) :=
  c3_binary_roundtrip c3bytes c3req
    { status := 200, statusText := "OK",
      contentType := some "application/octet-stream", data := .buf c3bytes }
    (by decide) (by decide) (by decide) (by decide) (by decide) (by decide) rfl

/-! ## Claim C4: URL-resolution recovery from a misclassified byte body -/

/-- Decoding a serialized byte array as character codes yields the
corresponding text. -/
theorem decodeCharCodes_bytes (bs : List Nat) :
    decodeCharCodes (bs.map fun (b : Nat) => JVal.jnum b) = some (stringOfCodes bs) := by
  unfold decodeCharCodes stringOfCodes
  have h : (bs.map fun (b : Nat) => (JVal.jnum b : JVal)).mapM jvalCharCode = some bs := by
    induction bs with
    | nil => rfl
    | cons x xs ih =>
      simp only [List.map_cons, List.mapM_cons, ih]
      simp [jvalCharCode]
  rw [h]

/-- The urls extraction of `getDownloadUrls` gives the same mapping for a
byte-sequence body that parses as JSON with a `urls` key as for the same
body delivered as parsed JSON. -/
theorem getDownloadUrlsData_recovery (bs : List Nat) (p u : JVal)
    (h0 : bs ≠ [])
    (hparse : parseJson (stringOfCodes bs) = some p)
    (hurls : jsGetField p "urls" = some u) :
    getDownloadUrlsData (.jarr (bs.map fun (b : Nat) => JVal.jnum b)) =
      getDownloadUrlsData p := by
  have hobj : ∃ fs, p = JVal.jobj fs := by
    cases p <;> simp [jsGetField] at hurls ⊢
  obtain ⟨fs, rfl⟩ := hobj
  have hto : jsTruthy (JVal.jobj fs) = true := rfl
  unfold getDownloadUrlsData
  simp only [List.length_map, decodeCharCodes_bytes, hparse]
  rw [if_pos (show bs.length > 0 from List.length_pos.mpr h0)]
  by_cases ht : jsTruthy u
  · rw [if_pos (by simp [Option.any, hto, hurls, ht])]
  · rw [if_neg (by simp [Option.any, hto, hurls, ht])]
    have hlk : fs.lookup "urls" = some u := hurls
    simp [jsFieldOr, jsGetField, hlk, ht]

/-- Claim C4: when the URL-resolution envelope's data arrives as a byte
sequence that decodes to text starting with a brace and parses as JSON
containing a `urls` key, `getDownloadUrls` returns exactly what it would
return for the same body delivered as JSON. -/
theorem c4_urls_recovery
    (st : ClientState) (now : Nat) (auth : AuthResponse)
    (bs : List Nat) (p u : JVal) (status : Nat) (stext : String)
    (hstart : (stringOfCodes bs).toList.head? = some '\x7b')
    (hparse : parseJson (stringOfCodes bs) = some p)
    (hurls : jsGetField p "urls" = some u) :
    getDownloadUrls st now auth
        (Env.mk (.jarr (bs.map fun (b : Nat) => JVal.jnum b)) status stext none true) =
      getDownloadUrls st now auth (Env.mk p status stext none false) := by
  have h0 : bs ≠ [] := by
    intro hnil
    subst hnil
    exact absurd hstart (by decide)
  unfold getDownloadUrls
  cases hres : (ensureAuthenticated st now auth).result with
  | error e => simp only [hres]
  | ok t =>
    simp only [hres]
    by_cases hs : status ≠ 200
    · rw [if_pos hs, if_pos hs]
    · rw [if_neg hs, if_neg hs]
      rw [getDownloadUrlsData_recovery bs p u h0 hparse hurls]

/-- The literal JSON body of the C4 scenario. -/
def c4text : String :=
  "\x7b\"urls\":\x7b\"1\":\x7b\"url\":\"http://x\",\"filename\":\"a.csv\"\x7d\x7d\x7d"

/-- Its bytes, as the relay's misclassified binary envelope carries them. -/
def c4bytes : List Nat := c4text.toList.map Char.toNat

/-- The parsed body. -/
def c4parsed : JVal :=
  .jobj [("urls", .jobj [("1", .jobj [("url", .jstr "http://x"),
    ("filename", .jstr "a.csv")])])]

/-- The expected objectId-to-DownloadUrlInfo mapping. -/
def c4urls : JVal :=
  .jobj [("1", .jobj [("url", .jstr "http://x"), ("filename", .jstr "a.csv")])]

/-- A client state with a valid token for the C4 witness. -/
def c4st : ClientState := { accessToken := some "tok", tokenExpiry := some 99 }

/-- Witness for claim C4: the literal bytes of the urls JSON document,
misclassified as binary, resolve to exactly the mapping the parsed JSON
body yields. -/
theorem c4_urls_recovery_witness :
    getDownloadUrls c4st 10 { status := 200 }
        (Env.mk (.jarr (c4bytes.map fun (b : Nat) => JVal.jnum b)) 200 "OK" none true) =
      getDownloadUrls c4st 10 { status := 200 } (Env.mk c4parsed 200 "OK" none false) ∧
    (getDownloadUrls c4st 10 { status := 200 }
        (Env.mk (.jarr (c4bytes.map fun (b : Nat) => JVal.jnum b)) 200 "OK" none
          true)).result = .ok c4urls := by
  have h := c4_urls_recovery c4st 10 { status := 200 } c4bytes c4parsed c4urls 200 "OK"
    (by rfl) (by rfl) (by rfl)
  exact ⟨h, by rw [h]; rfl⟩

/-! ## Claim C5: the large-file redirect path -/

/-- A redirect envelope (truthy `redirect`, status 302) makes the
relay-mediated download return the redirect descriptor. -/
theorem downloadFileProxy_redirect (env : Env JVal) (r : String)
    (h1 : env.redirect = some r) (h2 : r ≠ "") (h3 : env.status = 302) :
    downloadFileProxy env =
      .ok (.redirect r "Large file detected. Click to download directly.") := by
  unfold downloadFileProxy
  simp [h1, h2, h3]

/-- Claim C5: a request whose target URL matches the signed-S3 data-file
pattern is not fetched by the relay, which instead answers with a
redirect envelope carrying the URL and status 302 and performs zero
outbound calls; a downloader that receives an envelope with a truthy
`redirect` and status 302 returns the redirect descriptor instead of
bytes; and `downloadTableData` surfaces that descriptor as a file result
with `isRedirect` set and the redirect URL attached. -/
theorem c5_large_file_redirect :
    (∀ (rb : ReqBody) (up : Upstream), rb.url ≠ "" → isS3FileDownload rb.url = true →
      proxyHandler { method := "POST", body := some rb } up =
        { httpStatus := 200, allowOrigin := some "*",
          envelope := some (EnvOut.mk none (some 302) (some "Redirect to S3") false
            (some rb.url) none),
          outboundCalls := 0 }) ∧
    (∀ (url : String) (direct : Option (List Nat)) (env : Env JVal) (r : String),
      env.redirect = some r → r ≠ "" → env.status = 302 →
      (isS3Url url = false ∨ direct = none) →
      downloadFile url direct env =
        .ok (.redirect r "Large file detected. Click to download directly.")) ∧
    (∀ (st : ClientState) (now : Nat) (auth : AuthResponse) (table : String)
      (query : Query) (polls : Nat → Except String Job) (dur : Nat → Nat)
      (jid oid u f r sx sy sz : String) (direct : String → Option (List Nat))
      (fileEnv : String → Env JVal),
      tokenValid st now = true → jid ≠ "" → u ≠ "" → f ≠ "" → r ≠ "" →
      direct u = none →
      fileEnv u = Env.mk .jnull 302 sz (some r) false →
      downloadTableData st now auth table query
          (Env.mk (Job.mk (some jid) "completed" none (some [⟨oid⟩])) 200 sx none false)
          polls dur
          (Env.mk (.jobj [("urls", .jobj [(oid, .jobj [("url", .jstr u),
            ("filename", .jstr f)])])]) 200 sy none false)
          direct fileEnv =
        { result := .ok [FileResult.mk f none true (some (.jstr r))
            (some (.jstr "Large file detected. Click to download directly."))],
          urlCalls := 1, downloadCalls := 1 }) := by
  refine ⟨?_, ?_, ?_⟩
  · intro rb up hne hs3
    simp [proxyHandler, hne, hs3]
  · intro url direct env r h1 h2 h3 hd
    have hfp := downloadFileProxy_redirect env r h1 h2 h3
    unfold downloadFile
    rcases hd with hd | hd
    · rw [hd]
      simpa using hfp
    · rw [hd]
      split_ifs <;> exact hfp
  · intro st now auth table query polls dur jid oid u f r sx sy sz direct fileEnv
      htok hjid hu hf hr hdirect hfile
    have hdl : downloadFile u (direct u) (fileEnv u) =
        .ok (.redirect r "Large file detected. Click to download directly.") := by
      rw [hdirect, hfile]
      unfold downloadFile
      split_ifs <;> exact downloadFileProxy_redirect _ r rfl hr rfl
    have hget : getTableData st now auth query
        (Env.mk (Job.mk (some jid) "completed" none (some [⟨oid⟩])) 200 sx none false)
        polls dur =
        { result := .ok (Job.mk (some jid) "completed" none (some [⟨oid⟩])),
          state := st, authCalls := 0, pollsUsed := 0 } := by
      simp [getTableData, queryTableData, ensureAuthenticated, htok, optIsTruthy, hjid]
    have hurls : getDownloadUrls st now auth
        (Env.mk (.jobj [("urls", .jobj [(oid, .jobj [("url", .jstr u),
          ("filename", .jstr f)])])]) 200 sy none false) =
        { result := .ok (.jobj [(oid, .jobj [("url", .jstr u), ("filename", .jstr f)])]),
          state := st, authCalls := 0 } := by
      simp [getDownloadUrls, ensureAuthenticated, htok, getDownloadUrlsData,
        jsFieldOr, jsGetField, jsTruthy]
    have hobjs : downloadObjects table
        [(oid, .jobj [("url", .jstr u), ("filename", .jstr f)])] direct fileEnv =
        (.ok [FileResult.mk f none true (some (.jstr r))
            (some (.jstr "Large file detected. Click to download directly."))], 1) := by
      simp [downloadObjects, jsGetField, List.lookup, jsTruthy, hu, hf, jsValToString,
        hdl, dlIsRedirect, dlRedirectUrl, dlRedirectMessage]
    simp [downloadTableData, hget, hurls, hobjs, jsEnumFields]

/-- The witness request: a signed S3 URL for a CSV shard. -/
def c5req : ReqBody :=
  { url := "https://bucket.s3.amazonaws.com/exports/file.csv?X-Amz-Signature=abc" }

/-- A client state with a valid token for the C5 witness. -/
def c5st : ClientState := { accessToken := some "tok", tokenExpiry := some 99 }

/-- The redirect target of the C5 witness. -/
def c5target : String := "https://bucket.s3.amazonaws.com/exports/big.csv"

/-- Witness for claim C5: the signed URL is answered with a redirect
envelope and zero outbound calls, the downloader converts a concrete
redirect envelope into the descriptor, and a full `downloadTableData`
run surfaces it as an `isRedirect` file result. -/
theorem c5_large_file_redirect_witness :
    proxyHandler { method := "POST", body := some c5req }
        { status := 200, data := .sval .jnull } =
      { httpStatus := 200, allowOrigin := some "*",
        envelope := some (EnvOut.mk none (some 302) (some "Redirect to S3") false
          (some c5req.url) none),
        outboundCalls := 0 } ∧
    downloadFile "https://host.example/file.bin" none
        (Env.mk .jnull 302 "Found" (some c5target) false) =
      .ok (.redirect c5target "Large file detected. Click to download directly.") ∧
    downloadTableData c5st 10 { status := 200 } "users" { format := "csv" }
        (Env.mk (Job.mk (some "j1") "completed" none (some [⟨"o1"⟩])) 200 "OK" none false)
        (fun _ => .ok { status := "running" }) (fun _ => 1)
        (Env.mk (.jobj [("urls", .jobj [("o1", .jobj [("url",
          .jstr "https://host.example/file.bin"),
          ("filename", .jstr "users_o1.csv")])])]) 200 "OK" none false)
        (fun _ => none) (fun _ => Env.mk .jnull 302 "Found" (some c5target) false) =
      { result := .ok [FileResult.mk "users_o1.csv" none true (some (.jstr c5target))
          (some (.jstr "Large file detected. Click to download directly."))],
        urlCalls := 1, downloadCalls := 1 } := by
  refine ⟨?_, ?_, ?_⟩
  · exact c5_large_file_redirect.1 c5req { status := 200, data := .sval .jnull }
      (by decide) (by decide)
  · exact c5_large_file_redirect.2.1 "https://host.example/file.bin" none
      (Env.mk .jnull 302 "Found" (some c5target) false) c5target rfl (by decide) rfl
      (Or.inr rfl)
  · exact c5_large_file_redirect.2.2 c5st 10 { status := 200 } "users" { format := "csv" }
      (fun _ => .ok { status := "running" }) (fun _ => 1)
      "j1" "o1" "https://host.example/file.bin" "users_o1.csv" c5target "OK" "OK" "Found"
      (fun _ => none) (fun _ => Env.mk .jnull 302 "Found" (some c5target) false)
      (by decide) (by decide) (by decide) (by decide) (by decide) rfl rfl

/-! ## Claim C7: no client-side validation of `since` -/

/-- The mode field the request body carries equals `optTruthy`. -/
theorem ite_optIsTruthy (o : Option String) :
    (if optIsTruthy o then o else none) = optTruthy o := by
  cases o with
  | none => rfl
  | some s =>
    by_cases h : s = "" <;> simp [optIsTruthy, optTruthy, h]

/-- Claim C7 (counterexample): an incremental-intent query lacking a
truthy `since` — whether built by the incremental builder with an empty
timestamp or written without the field — is submitted successfully, with
the request body containing only `format`, and no `InvalidQuery` (or
any) error is raised before sending. -/
theorem c7_invalid_query_counterexample :
    (queryTableData (ClientState.mk none none (some "tok") (some 99)) 10
        { status := 200 } (createIncrementalQuery "csv" (.str "") none none)
        (Env.mk (Job.mk (some "j7") "running" none none) 200 "OK" none false)).result =
      .ok (Job.mk (some "j7") "running" none none) ∧
    (queryTableData (ClientState.mk none none (some "tok") (some 99)) 10
        { status := 200 } (createIncrementalQuery "csv" (.str "") none none)
        (Env.mk (Job.mk (some "j7") "running" none none) 200 "OK" none false)).sentBody =
      some (Query.mk "csv" none none none) ∧
    (createIncrementalQuery "csv" (.str "") none none).since = some "" ∧
    (queryTableData (ClientState.mk none none (some "tok") (some 99)) 10
        { status := 200 } (Query.mk "csv" none none none)
        (Env.mk (Job.mk (some "j7") "running" none none) 200 "OK" none false)).sentBody =
      some (Query.mk "csv" none none none) :=
  ⟨rfl, rfl, rfl, rfl⟩

/-- Claim C7 (amended): the client performs no `since` validation at
submission: for every query whose `since` is absent or empty, and a
valid token, `queryTableData` sends a request body containing only
`format` (and a truthy `mode`), raises no error, and returns the job
record of a 200 response. -/
theorem c7_no_since_validation
    (st : ClientState) (now : Nat) (auth : AuthResponse) (query : Query)
    (env : Env Job)
    (htok : tokenValid st now = true) (hst : env.status = 200)
    (hsince : optIsTruthy query.since = false) :
    queryTableData st now auth query env =
      { result := .ok env.data, state := st, authCalls := 0,
        sentBody := some (Query.mk query.format none none (optTruthy query.mode)) } := by
  simp [queryTableData, ensureAuthenticated, htok, hst, buildRequestBody, hsince,
    ite_optIsTruthy]

/-- Witness for the amended claim C7: a since-less csv query against a
valid session is submitted as `format` only and succeeds. -/
theorem c7_no_since_validation_witness :
    queryTableData (ClientState.mk none none (some "tok") (some 99)) 10
        { status := 200 } (Query.mk "csv" none none none)
        (Env.mk (Job.mk (some "j7") "running" none none) 200 "OK" none false) =
      { result := .ok (Job.mk (some "j7") "running" none none),
        state := ClientState.mk none none (some "tok") (some 99), authCalls := 0,
        sentBody := some (Query.mk "csv" none none none) } :=
  c7_no_since_validation (ClientState.mk none none (some "tok") (some 99)) 10
    { status := 200 } (Query.mk "csv" none none none)
    (Env.mk (Job.mk (some "j7") "running" none none) 200 "OK" none false)
    (by decide) rfl rfl

/-! ## Claim C8: zero objects yield an empty file list -/

/-- Claim C8: when the job completes with an empty or absent objects
list, `downloadTableData` returns `{files: []}` without error and
performs neither URL resolution nor any download. -/
theorem c8_empty_objects
    (st : ClientState) (now : Nat) (auth : AuthResponse) (table : String)
    (query : Query) (submitEnv : Env Job) (polls : Nat → Except String Job)
    (dur : Nat → Nat) (urlEnv : Env JVal) (direct : String → Option (List Nat))
    (fileEnv : String → Env JVal)
    (htok : tokenValid st now = true) (hst : submitEnv.status = 200)
    (hid : optIsTruthy submitEnv.data.id = true)
    (hcomp : submitEnv.data.status = "completed")
    (hobj : submitEnv.data.objects.getD [] = []) :
    downloadTableData st now auth table query submitEnv polls dur urlEnv direct
        fileEnv =
      { result := .ok [], urlCalls := 0, downloadCalls := 0 } := by
  have hget : getTableData st now auth query submitEnv polls dur =
      { result := .ok submitEnv.data, state := st, authCalls := 0, pollsUsed := 0 } := by
    simp [getTableData, queryTableData, ensureAuthenticated, htok, hst, hid, hcomp]
  simp [downloadTableData, hget, hobj]

/-- Witness for claim C8: a snapshot csv query on `users` whose job
returns `completed` at once with no objects gives `{files: []}` and
touches neither the URL endpoint nor the downloader. -/
theorem c8_empty_objects_witness :
    downloadTableData (ClientState.mk none none (some "tok") (some 99)) 10
        { status := 200 } "users" (createSnapshotQuery "csv" none)
        (Env.mk (Job.mk (some "j8") "completed" none none) 200 "OK" none false)
        (fun _ => .ok { status := "running" }) (fun _ => 1)
        (Env.mk .jnull 200 "OK" none false) (fun _ => none)
        (fun _ => Env.mk .jnull 200 "OK" none false) =
      { result := .ok [], urlCalls := 0, downloadCalls := 0 } :=
  c8_empty_objects (ClientState.mk none none (some "tok") (some 99)) 10
    { status := 200 } "users" (createSnapshotQuery "csv" none)
    (Env.mk (Job.mk (some "j8") "completed" none none) 200 "OK" none false)
    (fun _ => .ok { status := "running" }) (fun _ => 1)
    (Env.mk .jnull 200 "OK" none false) (fun _ => none)
    (fun _ => Env.mk .jnull 200 "OK" none false)
    (by decide) rfl (by decide) rfl rfl

/-! ## Claim C9: preflight handling by the relays -/

/-- Claim C9 (counterexample): the main relay (`api/proxy.js`) answers a
preflight whose `Origin` is `https://app.example` with
`Access-Control-Allow-Origin: *` — not the echoed origin — and never
sets `Access-Control-Allow-Credentials`; so the claim that the Relay
echoes the caller's origin and allows credentials is false for it. -/
theorem c9_preflight_counterexample :
    (proxyHandler (HandlerReq.mk "OPTIONS" (some "https://app.example") none)
        { status := 200, data := .sval .jnull }).allowOrigin ≠
      some "https://app.example" ∧
    (proxyHandler (HandlerReq.mk "OPTIONS" (some "https://app.example") none)
        { status := 200, data := .sval .jnull }).allowCredentials = false := by
  refine ⟨by decide, rfl⟩

/-- Claim C9 (amended): both relay functions answer OPTIONS preflights
themselves with zero outbound calls; `api/cors-proxy.js` echoes the
caller's origin (falling back to `*`) and sets
`Access-Control-Allow-Credentials: true` with a 204, while
`api/proxy.js` responds 200 with the wildcard origin and no credentials
header. -/
theorem c9_preflight_amended :
    (∀ (req : HandlerReq) (up : Upstream), req.method = "OPTIONS" →
      proxyHandler req up =
        { httpStatus := 200, allowOrigin := some "*", allowCredentials := false,
          envelope := none, outboundCalls := 0 }) ∧
    (∀ (req : HandlerReq) (up : Upstream), req.method = "OPTIONS" →
      corsProxyHandler req up =
        { httpStatus := 204, allowOrigin := some (req.origin.getD "*"),
          allowCredentials := true, envelope := none, outboundCalls := 0 }) := by
  constructor
  · intro req up h
    simp [proxyHandler, h]
  · intro req up h
    simp [corsProxyHandler, h]

/-- Witness for the amended claim C9 at a concrete preflight request. -/
theorem c9_preflight_amended_witness :
    proxyHandler (HandlerReq.mk "OPTIONS" (some "https://app.example") none)
        { status := 200, data := .sval .jnull } =
      { httpStatus := 200, allowOrigin := some "*", allowCredentials := false,
        envelope := none, outboundCalls := 0 } ∧
    corsProxyHandler (HandlerReq.mk "OPTIONS" (some "https://app.example") none)
        { status := 200, data := .sval .jnull } =
      { httpStatus := 204, allowOrigin := some "https://app.example",
        allowCredentials := true, envelope := none, outboundCalls := 0 } :=
  ⟨c9_preflight_amended.1 (HandlerReq.mk "OPTIONS" (some "https://app.example") none)
      { status := 200, data := .sval .jnull } rfl,
    c9_preflight_amended.2 (HandlerReq.mk "OPTIONS" (some "https://app.example") none)
      { status := 200, data := .sval .jnull } rfl⟩

/-! ## Claim C6: query-builder field discipline -/

/-- Digit characters really are digits. -/
theorem digitChar_isDigit (n : Nat) : (digitChar n).isDigit = true := by
  unfold digitChar
  have h : n % 10 = 0 ∨ n % 10 = 1 ∨ n % 10 = 2 ∨ n % 10 = 3 ∨ n % 10 = 4 ∨
      n % 10 = 5 ∨ n % 10 = 6 ∨ n % 10 = 7 ∨ n % 10 = 8 ∨ n % 10 = 9 := by omega
  rcases h with h | h | h | h | h | h | h | h | h | h <;> rw [h] <;> decide

/-- Every character of a printed natural number is a digit. -/
theorem natDigitsAux_digits (fuel : Nat) :
    ∀ n, ∀ c ∈ natDigitsAux fuel n, c.isDigit = true := by
  induction fuel with
  | zero => intro n c hc; simp [natDigitsAux] at hc
  | succ m ih =>
    intro n c hc
    unfold natDigitsAux at hc
    by_cases h : n < 10
    · rw [if_pos h] at hc
      simp only [List.mem_singleton] at hc
      subst hc
      exact digitChar_isDigit n
    · rw [if_neg h] at hc
      rcases List.mem_append.mp hc with h1 | h1
      · exact ih (n / 10) c h1
      · simp only [List.mem_singleton] at h1
        subst h1
        exact digitChar_isDigit _

/-- Every character of a zero-padded number is a digit. -/
theorem padDigits_digits (w n : Nat) {c : Char} (hc : c ∈ padDigits w n) :
    c.isDigit = true := by
  unfold padDigits at hc
  rcases List.mem_append.mp hc with h1 | h1
  · rw [List.eq_of_mem_replicate h1]
    decide
  · exact natDigitsAux_digits _ _ c h1

/-- Every character of a zero-padded number is a timestamp character. -/
theorem padDigits_all (w n : Nat) : (padDigits w n).all isTimestampChar = true := by
  rw [List.all_eq_true]
  intro c hc
  simp [isTimestampChar, padDigits_digits w n hc]

/-- Every character of a rendered date-time is a digit or punctuation. -/
theorem isoDateTimeChars_all (y m d hh mi ss ms3 : Nat) :
    (isoDateTimeChars y m d hh mi ss ms3).all isTimestampChar = true := by
  unfold isoDateTimeChars
  split <;> simp [List.all_append, padDigits_all, isTimestampChar]

/-- A rendered date-time contains the `T` separator. -/
theorem isoDateTimeChars_memT (y m d hh mi ss ms3 : Nat) :
    'T' ∈ isoDateTimeChars y m d hh mi ss ms3 := by
  unfold isoDateTimeChars
  refine List.mem_append.mpr (Or.inl ?_)
  refine List.mem_append.mpr (Or.inl ?_)
  refine List.mem_append.mpr (Or.inl ?_)
  refine List.mem_append.mpr (Or.inl ?_)
  refine List.mem_append.mpr (Or.inl ?_)
  refine List.mem_append.mpr (Or.inl ?_)
  refine List.mem_append.mpr (Or.inl ?_)
  refine List.mem_append.mpr (Or.inl ?_)
  refine List.mem_append.mpr (Or.inr ?_)
  simp

/-- A rendered date-time ends in `Z`. -/
theorem isoDateTimeChars_lastZ (y m d hh mi ss ms3 : Nat) :
    (isoDateTimeChars y m d hh mi ss ms3).getLast? = some 'Z' := by
  unfold isoDateTimeChars
  exact List.getLast?_concat _

/-- A rendered date-time is nonempty. -/
theorem isoDateTimeChars_ne_nil (y m d hh mi ss ms3 : Nat) :
    isoDateTimeChars y m d hh mi ss ms3 ≠ [] := by
  intro h
  have h2 := isoDateTimeChars_lastZ y m d hh mi ss ms3
  rw [h] at h2
  simp at h2

/-- Every character of an ISO timestamp is a digit or ISO punctuation. -/
theorem isoChars_all (ms : Nat) : (isoChars ms).all isTimestampChar = true :=
  isoDateTimeChars_all _ _ _ _ _ _ _

/-- An ISO timestamp contains the `T` separator. -/
theorem isoChars_memT (ms : Nat) : 'T' ∈ isoChars ms :=
  isoDateTimeChars_memT _ _ _ _ _ _ _

/-- An ISO timestamp ends in `Z`. -/
theorem isoChars_lastZ (ms : Nat) : (isoChars ms).getLast? = some 'Z' :=
  isoDateTimeChars_lastZ _ _ _ _ _ _ _

/-- An ISO timestamp is nonempty. -/
theorem isoChars_ne_nil (ms : Nat) : isoChars ms ≠ [] :=
  isoDateTimeChars_ne_nil _ _ _ _ _ _ _

/-- A nonempty list is not `isEmpty`. -/
theorem isEmpty_eq_false_of_ne_nil {α : Type} (l : List α) (h : l ≠ []) :
    l.isEmpty = false := by
  cases l with
  | nil => exact absurd rfl h
  | cons a t => rfl

/-- The timestamp-shape test, decomposed over the character list. -/
theorem isTimestampString_mk (l : List Char)
    (h1 : l.isEmpty = false) (h2 : l.all isTimestampChar = true)
    (h3 : l.contains 'T' = true) (h4 : l.getLast? = some 'Z') :
    isTimestampString (String.mk l) = true := by
  unfold isTimestampString
  have hl : (String.mk l).toList = l := rfl
  rw [hl, h1, h2, h3, h4]
  rfl

/-- The output of `toISOString` satisfies the absolute-timestamp shape. -/
theorem isTimestampString_iso (ms : Nat) :
    isTimestampString (jsToISOString ms) = true := by
  unfold jsToISOString
  exact isTimestampString_mk (isoChars ms)
    (isEmpty_eq_false_of_ne_nil _ (isoChars_ne_nil ms))
    (isoChars_all ms)
    (List.elem_eq_true_of_mem (isoChars_memT ms))
    (isoChars_lastZ ms)

/-- Claim C6 (counterexample): the incremental builder serializes a
string `since` argument verbatim, so a non-timestamp string yields a
`since` value that is not an absolute timestamp string — refuting
"the serialized value is an absolute timestamp string for every accepted
since input". -/
theorem c6_query_builders_counterexample :
    (createIncrementalQuery "csv" (.str "not-a-timestamp") none none).since =
      some "not-a-timestamp" ∧
    isTimestampString "not-a-timestamp" = false :=
  ⟨rfl, by decide⟩

/-- Claim C6 (amended): the snapshot builder never includes `since` or
`until`; the incremental builder always includes `since`, converting
`Date` arguments via `toISOString` into an absolute timestamp string
while passing string arguments through verbatim; and `until` is included
only when supplied and truthy (`Date` values via `toISOString`, nonempty
strings verbatim). -/
theorem c6_query_builders
    (format : String) (mode : Option String) (d : Nat) (s : String)
    (until? : Option TimeArg) :
    ((createSnapshotQuery format mode).since = none ∧
      (createSnapshotQuery format mode).until' = none) ∧
    ((createIncrementalQuery format (.date d) until? mode).since =
        some (jsToISOString d) ∧
      isTimestampString (jsToISOString d) = true) ∧
    ((createIncrementalQuery format (.str s) until? mode).since = some s) ∧
    ((createIncrementalQuery format (.str s) none mode).until' = none) ∧
    (∀ ud : Nat,
      (createIncrementalQuery format (.str s) (some (.date ud)) mode).until' =
        some (jsToISOString ud)) ∧
    (∀ us : String,
      (createIncrementalQuery format (.str s) (some (.str us)) mode).until' =
        if us = "" then none else some us) := by
  refine ⟨⟨rfl, rfl⟩, ⟨rfl, isTimestampString_iso d⟩, rfl, rfl, fun ud => rfl, ?_⟩
  intro us
  by_cases h : us = "" <;>
    simp [createIncrementalQuery, timeArgTruthy, timeArgToString, h]
